import Mathlib

/-!
Verification of the workflow execution engine of `api_ui_builder`
(`backend/app/engine.py`, `backend/app/main.py`, `backend/app/repository.py`).

The embedding is shallow: Python JSON values become the inductive `Json`
(numbers as `Int`; the claims under study involve no float arithmetic),
Python dicts become insertion-ordered association lists with first-key
lookup and in-place update, the Postgres-backed store becomes an explicit
per-execution record of an event list plus the mutable execution row, and
the `while True` run loop becomes a fuel-indexed recursion.  Effectful
dependencies that the engine treats as opaque (the actual HTTP transport,
the Python-`ast` expression evaluator, wall-clock time) are taken as
function parameters, exactly as the repository's own unit tests replace
them by monkeypatching.
-/

namespace ApiUiBuilder

/-- JSON-like values manipulated by the engine: Python `None`, `bool`,
`int`, `str`, `list`, `dict` (insertion-ordered, string keys). -/
inductive Json where
  | null : Json
  | bool (b : Bool) : Json
  | num (n : Int) : Json
  | str (s : String) : Json
  | arr (xs : List Json) : Json
  | obj (kvs : List (String × Json)) : Json

/-- Lookup in a Python dict (association list, first match). -/
def objGet : List (String × Json) → String → Option Json
  | [], _ => none
  | (k', v) :: rest, k => if k' == k then some v else objGet rest k

/-- Python `d[k] = v`: replace in place if the key exists, else append. -/
def objSet : List (String × Json) → String → Json → List (String × Json)
  | [], k, v => [(k, v)]
  | (k', v') :: rest, k, v =>
      if k' == k then (k, v) :: rest else (k', v') :: objSet rest k v

/-- Python `d.get(k, default)`. -/
def objGetD (kvs : List (String × Json)) (k : String) (d : Json) : Json :=
  (objGet kvs k).getD d

/-- Field access on a `Json` that may or may not be a dict. -/
def Json.getKey : Json → String → Option Json
  | .obj kvs, k => objGet kvs k
  | _, _ => none

/-- Characters stripped by Python's `str.strip()` (whitespace). -/
def pySpace (c : Char) : Bool :=
  c == ' ' || c == '\t' || c == '\n' || c == '\r' || c == '\x0b' || c == '\x0c'

/-- Python `str.strip()`. -/
def pyStrip (s : String) : String :=
  String.mk (((s.data.dropWhile pySpace).reverse.dropWhile pySpace).reverse)

/-- Whether `pat` occurs as a contiguous sublist of `l`. -/
def subList (pat : List Char) : List Char → Bool
  | [] => pat.isEmpty
  | c :: rest => leadsList pat (c :: rest) || subList pat rest
where
  /-- Whether `p` is an initial segment of `l`. -/
  leadsList : List Char → List Char → Bool
    | [], _ => true
    | _ :: _, [] => false
    | p :: ps, c :: cs => p == c && leadsList ps cs

/-- Python `pat in s` on strings. -/
def strContains (s pat : String) : Bool := subList pat.data s.data

/-- Python `s.startswith(pat)`. -/
def strStarts (s pat : String) : Bool := subList.leadsList pat.data s.data

/-- Split a character list at `.` separators (Python `s.split(".")`). -/
def splitDot : List Char → List String
  | [] => [""]
  | c :: rest =>
      let tail := splitDot rest
      if c == '.' then "" :: tail
      else
        match tail with
        | [] => [String.mk [c]]
        | t :: ts => String.mk (c :: t.data) :: ts

/-- Decimal digits of a positive numeral, fuel-indexed so that the kernel
can evaluate it. -/
def natDigitsAux : Nat → Nat → List Char
  | 0, _ => []
  | _ + 1, 0 => []
  | fuel + 1, n => natDigitsAux fuel (n / 10) ++ [Char.ofNat (48 + n % 10)]

/-- Decimal rendering of a natural number. -/
def natRepr (n : Nat) : String :=
  if n == 0 then "0" else String.mk (natDigitsAux (n + 1) n)

/-- Python `str`/`repr` of an integer. -/
def intRepr : Int → String
  | .ofNat m => natRepr m
  | .negSucc m => "-" ++ natRepr (m + 1)

/-- Parse an optionally signed decimal integer, Python `int(str)` (leading
and trailing whitespace tolerated, everything else a `ValueError`). -/
def pyParseInt (s : String) : Option Int :=
  let t := (pyStrip s).data
  match t with
  | '-' :: ds => (digitsVal ds).map (fun n => -(n : Int))
  | '+' :: ds => (digitsVal ds).map (fun n => (n : Int))
  | ds => (digitsVal ds).map (fun n => (n : Int))
where
  /-- Value of a nonempty all-digit character list. -/
  digitsVal (ds : List Char) : Option Nat :=
    if ds.isEmpty then none
    else if ds.all (fun c => c.isDigit) then
      some (ds.foldl (fun acc c => acc * 10 + (c.toNat - 48)) 0)
    else none

/-- Source `engine._coerce_int`: Python `int(value)` with a fallback
default on `TypeError`/`ValueError`. `int(bool)` is 0 or 1. -/
def coerceInt (v : Json) (d : Int) : Int :=
  match v with
  | .num n => n
  | .bool b => if b then 1 else 0
  | .str s => (pyParseInt s).getD d
  | _ => d

/-- Truthiness of strings accepted by `engine._coerce_bool`. -/
def boolWords : List String := ["1", "true", "yes", "y"]

/-- Python `str.lower()` (ASCII, which is all the engine compares). -/
def strLower (s : String) : String := String.mk (s.data.map Char.toLower)

/-- Source `engine._coerce_bool`: booleans pass through, strings compare
lower-cased against a word list, anything else is Python truthiness. -/
def coerceBool : Json → Bool
  | .bool b => b
  | .str s => boolWords.contains (strLower (pyStrip s))
  | .num n => n != 0
  | .null => false
  | .arr xs => !xs.isEmpty
  | .obj kvs => !kvs.isEmpty

/-- Source `engine._extract_items`: a list is itself, `None` is empty,
any other value is a one-element list. -/
def extractItems : Json → List Json
  | .arr xs => xs
  | .null => []
  | v => [v]

/-- Source `engine._split_path`: strip, drop a `$.`/`$` front marker,
split on dots, drop empty segments. -/
def splitPath (path : String) : List String :=
  let normalized := pyStrip path
  let normalized :=
    if strStarts normalized "$." then String.mk (normalized.data.drop 2)
    else if strStarts normalized "$" then String.mk (normalized.data.drop 1)
    else normalized
  (splitDot normalized.data).filter (fun part => part != "")

/-- One step of `engine._resolve_path`: a dict looks the segment up, a
list indexes it when the segment parses as an in-range index, everything
else collapses to `None`. -/
def resolveSeg (cur : Json) (part : String) : Json :=
  match cur with
  | .obj kvs => objGetD kvs part Json.null
  | .arr xs =>
      match pyParseInt part with
      | none => Json.null
      | some i =>
          if i < 0 then Json.null
          else match xs.get? i.toNat with
            | none => Json.null
            | some v => v
  | _ => Json.null

/-- Source `engine._resolve_path`: walk the dotted path, an empty path
returns the root, missing segments return `None` rather than failing.
The source returns Python `None` both for a stored JSON `null` and for a
missing key; `Json.null` models both. -/
def resolvePath (root : Json) (path : String) : Json :=
  if pyStrip path == "" then root
  else (splitPath path).foldl resolveSeg root

/-- Lowercase hexadecimal digit. -/
def hexDigit (n : Nat) : Char :=
  if n < 10 then Char.ofNat (48 + n) else Char.ofNat (87 + n)

/-- Four lowercase hex digits, as in Python's `é` escapes. -/
def hex4 (n : Nat) : List Char :=
  [hexDigit (n / 4096 % 16), hexDigit (n / 256 % 16), hexDigit (n / 16 % 16),
   hexDigit (n % 16)]

/-- Escaping of one character inside a JSON string literal, following
Python `json.dumps` with its default `ensure_ascii=True`: everything
outside `0x20..0x7e` is escaped, astral code points as surrogate pairs. -/
def escapeChar (c : Char) : List Char :=
  if c == '"' then ['\\', '"']
  else if c == '\\' then ['\\', '\\']
  else if c == '\n' then ['\\', 'n']
  else if c == '\r' then ['\\', 'r']
  else if c == '\t' then ['\\', 't']
  else if c.toNat == 8 then ['\\', 'b']
  else if c.toNat == 12 then ['\\', 'f']
  else if 32 ≤ c.toNat && c.toNat ≤ 126 then [c]
  else if c.toNat < 65536 then '\\' :: 'u' :: hex4 c.toNat
  else
    ('\\' :: 'u' :: hex4 (55296 + (c.toNat - 65536) / 1024)) ++
      ('\\' :: 'u' :: hex4 (56320 + (c.toNat - 65536) % 1024))

/-- Python `json.dumps` of a string. -/
def dumpStr (s : String) : String :=
  String.mk ('"' :: (s.data.map escapeChar).flatten ++ ['"'])

mutual

/-- Python `json.dumps(value)` with default separators (`", "` between
items, `": "` after keys). -/
def jsonDumps : Json → String
  | .null => "null"
  | .bool true => "true"
  | .bool false => "false"
  | .num n => intRepr n
  | .str s => dumpStr s
  | .arr xs => "[" ++ jsonDumpsItems xs ++ "]"
  | .obj kvs => "\x7b" ++ jsonDumpsPairs kvs ++ "\x7d"

/-- Comma-joined serializations of array items. -/
def jsonDumpsItems : List Json → String
  | [] => ""
  | [x] => jsonDumps x
  | x :: y :: xs => jsonDumps x ++ ", " ++ jsonDumpsItems (y :: xs)

/-- Comma-joined `key: value` serializations of object entries. -/
def jsonDumpsPairs : List (String × Json) → String
  | [] => ""
  | [(k, x)] => dumpStr k ++ ": " ++ jsonDumps x
  | (k, x) :: y :: xs => dumpStr k ++ ": " ++ jsonDumps x ++ ", " ++ jsonDumpsPairs (y :: xs)

end

/-- The mutable execution state of `engine.ExecutionContext`: the three
sub-maps `vars`, `nodes`, `system`. -/
structure Ctx where
  vars : List (String × Json)
  nodes : List (String × Json)
  system : List (String × Json)

/-- Source `ExecutionContext.to_json`. -/
def Ctx.toJson (c : Ctx) : Json :=
  Json.obj [("vars", Json.obj c.vars), ("nodes", Json.obj c.nodes),
            ("system", Json.obj c.system)]

/-- Source `ExecutionContext.from_json`: each sub-map is kept only when it
is a dict, otherwise it resets to empty. -/
def Ctx.fromJson (payload : Json) : Ctx :=
  { vars :=
      match payload.getKey "vars" with
      | some (Json.obj kvs) => kvs
      | _ => []
    nodes :=
      match payload.getKey "nodes" with
      | some (Json.obj kvs) => kvs
      | _ => []
    system :=
      match payload.getKey "system" with
      | some (Json.obj kvs) => kvs
      | _ => [] }

/-- The operator fragments whose presence routes `_resolve_value` through
the expression evaluator instead of path lookup. -/
def exprOps : List String :=
  ["==", "!=", ">=", "<=", " and ", " or ", " not ", "(", ")"]

/-- Whether the text is treated as an expression by `_resolve_value`. -/
def hasExprOp (text : String) : Bool :=
  exprOps.any (fun op => strContains text op)

/-- The five-key root dict `_resolve_value` builds for prefixed paths
(`vars.`, `nodes.`, `system.`, `input.`, `last_response.`, `$`). -/
def envRoot (c : Ctx) : Json :=
  Json.obj [("vars", Json.obj c.vars), ("nodes", Json.obj c.nodes),
            ("system", Json.obj c.system),
            ("input", objGetD c.vars "input" (Json.obj [])),
            ("last_response", objGetD c.system "last_response" Json.null)]

/-- The path-root markers checked by `_resolve_value`'s `startswith`. -/
def pathRootMarks : List String :=
  ["vars.", "nodes.", "system.", "input.", "last_response.", "$"]

/-- Source `engine._resolve_value`.  The Python-`ast` expression evaluator
(`_eval_expression`) is an opaque dependency, passed in as `evalExpr`;
every claim settled below either quantifies over it or stays in the
path-lookup branch where it is not consulted. -/
def resolveValue (evalExpr : String → Ctx → Json) (s : String) (c : Ctx) : Json :=
  let text := pyStrip s
  if text == "" then Json.null
  else if hasExprOp text then evalExpr text c
  else if pathRootMarks.any (fun m => strStarts text m) then
    resolvePath (envRoot c) text
  else resolvePath (Ctx.toJson c) text

/-- Source `_render_template.repl`: `None` renders empty, dicts and lists
render as `json.dumps`, scalars by Python `str`. -/
def replValue : Json → String
  | Json.null => ""
  | Json.arr xs => jsonDumps (Json.arr xs)
  | Json.obj kvs => jsonDumps (Json.obj kvs)
  | Json.bool b => if b then "True" else "False"
  | Json.num n => intRepr n
  | Json.str s => s

/-- Scan to the first closing `\x7d\x7d`, returning the segment content
before it and the remainder after it. -/
def takeSeg : List Char → Option (List Char × List Char)
  | [] => none
  | c :: rest =>
      if c == '\x7d' then
        match rest with
        | c2 :: rest2 =>
            if c2 == '\x7d' then some ([], rest2)
            else (takeSeg rest).map (fun p => (c :: p.1, p.2))
        | [] => none
      else (takeSeg rest).map (fun p => (c :: p.1, p.2))

/-- Left-to-right substitution of `TEMPLATE_RE` matches, following
`re.sub`: at each position an opening `\x7b\x7b` with a later closing
`\x7d\x7d` is replaced by the rendered segment and scanning resumes after
the match; otherwise one character is copied and scanning moves on.  Fuel
makes the recursion structural; every step consumes at least one
character, so fuel `≥` the list length never runs out.  (The scanner is
faithful to `\x7b\x7b\s*(.*?)\s*\x7d\x7d` for segment contents without a
newline; the template theorems below stay in that domain.) -/
def scanTemplate (evalExpr : String → Ctx → Json) (c : Ctx) : Nat → List Char → List Char
  | 0, l => l
  | _ + 1, [] => []
  | fuel + 1, ch :: rest =>
      if ch == '\x7b' then
        match rest with
        | c2 :: rest2 =>
            if c2 == '\x7b' then
              match takeSeg rest2 with
              | some (content, rest') =>
                  (replValue (resolveValue evalExpr (String.mk content) c)).data ++
                    scanTemplate evalExpr c fuel rest'
              | none => ch :: scanTemplate evalExpr c fuel (c2 :: rest2)
            else ch :: scanTemplate evalExpr c fuel rest
        | [] => ch :: scanTemplate evalExpr c fuel rest
      else ch :: scanTemplate evalExpr c fuel rest

/-- Source `engine._render_template` on a string value: substitution is
attempted only when both an opening and a closing marker occur. -/
def renderTemplateStr (evalExpr : String → Ctx → Json) (c : Ctx) (s : String) : String :=
  if strContains s "\x7b\x7b" && strContains s "\x7d\x7d" then
    String.mk (scanTemplate evalExpr c s.data.length s.data)
  else s

mutual

/-- Source `engine._render_template`: strings are substituted, dicts and
lists recurse structurally, other values pass through. -/
def renderTemplate (evalExpr : String → Ctx → Json) (c : Ctx) : Json → Json
  | Json.str s => Json.str (renderTemplateStr evalExpr c s)
  | Json.obj kvs => Json.obj (renderTemplateP evalExpr c kvs)
  | Json.arr xs => Json.arr (renderTemplateL evalExpr c xs)
  | v => v

/-- Recursion of `_render_template` into list items. -/
def renderTemplateL (evalExpr : String → Ctx → Json) (c : Ctx) : List Json → List Json
  | [] => []
  | x :: xs => renderTemplate evalExpr c x :: renderTemplateL evalExpr c xs

/-- Recursion of `_render_template` into dict values. -/
def renderTemplateP (evalExpr : String → Ctx → Json) (c : Ctx) :
    List (String × Json) → List (String × Json)
  | [] => []
  | (k, v) :: kvs => (k, renderTemplate evalExpr c v) :: renderTemplateP evalExpr c kvs

end

/-- Python truthiness (`bool(value)`) of a JSON value. -/
def pyTruthy : Json → Bool
  | Json.null => false
  | Json.bool b => b
  | Json.num n => n != 0
  | Json.str s => s != ""
  | Json.arr xs => !xs.isEmpty
  | Json.obj kvs => !kvs.isEmpty

/-- Python `a or b`. -/
def jOr (a b : Json) : Json := if pyTruthy a then a else b

/-- Python `d.get(k)` on a value that may not be a dict (`None` then,
matching the engine's guarded uses). -/
def jGet (j : Json) (k : String) : Json := (j.getKey k).getD Json.null

/-- Python `str(value)` for the values the normalizer passes through it
(ids, types, labels).  Dicts and lists fall back to their JSON rendering;
the engine never feeds a container where the difference from Python's
`repr`-style `str` would show. -/
def pyStrJson : Json → String
  | Json.null => "None"
  | Json.bool b => if b then "True" else "False"
  | Json.num n => intRepr n
  | Json.str s => s
  | v => jsonDumps v

/-- Canonical node record, source `engine.NodeDef` (the unused `raw`
field is dropped). -/
structure NodeDefL where
  id : String
  node_type : String
  label : String
  config : List (String × Json)

/-- Normalized edge record, source `engine._normalize_edge`'s dict. -/
structure EdgeL where
  id : String
  source : String
  target : String
  condition : Option String
  breakpoint : Bool
deriving DecidableEq

/-- Source `engine._node_from_graph`: authored shape reads from `data`,
legacy shape from the top level, with `or`-chained fallbacks. -/
def nodeFromGraph (node : Json) : NodeDefL :=
  let data := jGet node "data"
  let isData := match data with | Json.obj _ => true | _ => false
  let node_type := if isData then jGet data "nodeType" else jGet node "type"
  let config := if isData then jGet data "config" else jGet node "config"
  let label := if isData then jGet data "label" else jGet node "label"
  { id := pyStrJson (jGet node "id")
    node_type := pyStrJson (jOr node_type (jOr (jGet node "type") (Json.str "unknown")))
    label := pyStrJson (jOr label (jOr node_type (jOr (jGet node "id") (Json.str "node"))))
    config := match config with | Json.obj kvs => kvs | _ => [] }

/-- Source `engine._normalize_edge`: `condition` comes from
`data.condition` when it is literally `"true"`/`"false"`, else from
`sourceHandle` under the same test, else is null; `breakpoint` is the
truthiness of `data.breakpoint`. -/
def normalizeEdge (edge : Json) : EdgeL :=
  let data := jGet edge "data"
  let edgeData := match data with | Json.obj kvs => Json.obj kvs | _ => Json.obj []
  let condition0 := jGet edgeData "condition"
  let condFromHandle :=
    match jGet edge "sourceHandle" with
    | Json.str s => if s == "true" || s == "false" then some s else none
    | _ => none
  let condition :=
    match condition0 with
    | Json.str s => if s == "true" || s == "false" then some s else condFromHandle
    | _ => condFromHandle
  { id := pyStrJson (jGet edge "id")
    source := pyStrJson (jGet edge "source")
    target := pyStrJson (jGet edge "target")
    condition := condition
    breakpoint := pyTruthy (jGet edgeData "breakpoint") }

/-- Insertion into the nodes dict of `_index_graph` (later duplicate ids
overwrite, as in a Python dict comprehension). -/
def nodePut : List (String × NodeDefL) → String → NodeDefL → List (String × NodeDefL)
  | [], k, n => [(k, n)]
  | (k', n') :: rest, k, n =>
      if k' == k then (k, n) :: rest else (k', n') :: nodePut rest k n

/-- Lookup in the nodes dict. -/
def nodeGet : List (String × NodeDefL) → String → Option NodeDefL
  | [], _ => none
  | (k', n) :: rest, k => if k' == k then some n else nodeGet rest k

/-- Source `outgoing.setdefault(source, []).append(edge)`. -/
def outPut : List (String × List EdgeL) → String → EdgeL → List (String × List EdgeL)
  | [], k, e => [(k, [e])]
  | (k', es) :: rest, k, e =>
      if k' == k then (k', es ++ [e]) :: rest else (k', es) :: outPut rest k e

/-- Source `outgoing.get(node.id, [])`. -/
def outGet : List (String × List EdgeL) → String → List EdgeL
  | [], _ => []
  | (k', es) :: rest, k => if k' == k then es else outGet rest k

/-- Source `engine._index_graph`: nodes keyed by id, outgoing edges
grouped by source in source-array order. -/
def indexGraph (graph : Json) : List (String × NodeDefL) × List (String × List EdgeL) :=
  let rawNodes := match jGet graph "nodes" with | Json.arr xs => xs | _ => []
  let rawEdges := match jGet graph "edges" with | Json.arr xs => xs | _ => []
  let nodes := rawNodes.foldl (fun acc n => let nd := nodeFromGraph n; nodePut acc nd.id nd) []
  let outgoing := rawEdges.foldl (fun acc e => let ne := normalizeEdge e; outPut acc ne.source ne) []
  (nodes, outgoing)

/-- Source `engine._select_next_edge`: an `if` node prefers the first
outgoing edge whose condition matches the boolean result, every other
case takes the first outgoing edge; no outgoing edge selects nothing. -/
def selectNextEdge (node : NodeDefL) (outgoing : List (String × List EdgeL))
    (node_output : Json) : Option EdgeL :=
  match outGet outgoing node.id with
  | [] => none
  | e0 :: rest =>
      if node.node_type == "if" then
        let result := coerceBool (jGet node_output "result")
        let desired := if result then "true" else "false"
        match (e0 :: rest).find? (fun e => e.condition == some desired) with
        | some e => some e
        | none => some e0
      else some e0

/-- Outcome of one invocation of the request thunk handed to
`_with_resilience`: either a response dict or a raised transport error. -/
inductive HttpOutcome where
  | resp (r : Json) : HttpOutcome
  | raised (msg : String) : HttpOutcome

/-- The retry loop of `engine._with_resilience`, recursing on the number
of remaining attempts.  `fn i` is the outcome of the `i`-th invocation of
the request thunk, `openNow i` the wall clock read if that invocation's
failure trips the breaker; the third component counts invocations.
Backoff sleeps have no observable effect and are dropped. -/
def resilienceLoop (threshold openMs : Int) (openNow : Nat → Int) (fn : Nat → HttpOutcome) :
    List (String × Json) → String → Nat → Nat →
    List (String × Json) × Except String Json × Nat
  | circuit, lastErr, _, 0 => (circuit, Except.error lastErr, 0)
  | circuit, _lastErr, idx, rem + 1 =>
      match fn idx with
      | HttpOutcome.resp response =>
          let status := coerceInt (jGet response "status_code") 0
          if status ≥ 500 then
            let msg := "Upstream server error " ++ intRepr status
            let failures := coerceInt (objGetD circuit "failures" Json.null) 0 + 1
            let c1 := objSet circuit "failures" (Json.num failures)
            let c2 :=
              if threshold > 0 && failures ≥ threshold then
                objSet c1 "open_until_ms" (Json.num (openNow idx + max openMs 100))
              else c1
            let r := resilienceLoop threshold openMs openNow fn c2 msg (idx + 1) rem
            (r.1, r.2.1, r.2.2 + 1)
          else
            (objSet (objSet circuit "failures" (Json.num 0)) "open_until_ms" (Json.num 0),
             Except.ok response, 1)
      | HttpOutcome.raised msg =>
          let failures := coerceInt (objGetD circuit "failures" Json.null) 0 + 1
          let c1 := objSet circuit "failures" (Json.num failures)
          let c2 :=
            if threshold > 0 && failures ≥ threshold then
              objSet c1 "open_until_ms" (Json.num (openNow idx + max openMs 100))
            else c1
          let r := resilienceLoop threshold openMs openNow fn c2 msg (idx + 1) rem
          (r.1, r.2.1, r.2.2 + 1)

/-- Well-formedness of the breaker table for one node: when present,
`system.circuit_breakers` and its `node_id` entry are dicts (the source's
`setdefault`/`get` calls assume exactly this). -/
def circuitsWF (system : List (String × Json)) (node_id : String) : Bool :=
  match objGet system "circuit_breakers" with
  | none => true
  | some (Json.obj kvs) =>
      match objGet kvs node_id with
      | none => true
      | some (Json.obj _) => true
      | some _ => false
  | some _ => false

/-- The `system.circuit_breakers` table after `setdefault`, source
`_with_resilience` line one. -/
def breakerTable (system : List (String × Json)) : List (String × Json) :=
  match objGet system "circuit_breakers" with
  | some (Json.obj kvs) => kvs
  | _ => []

/-- The breaker entry for one node after the `setdefault` pair of
`_with_resilience`, defaulting to zero failures and a closed circuit. -/
def breakerState (system : List (String × Json)) (node_id : String) :
    List (String × Json) :=
  match objGet (breakerTable system) node_id with
  | some (Json.obj kvs) => kvs
  | _ => [("failures", Json.num 0), ("open_until_ms", Json.num 0)]

/-- The `open_until_ms` reading of `_with_resilience`'s fail-fast test. -/
def breakerOpenUntil (system : List (String × Json)) (node_id : String) : Int :=
  coerceInt (objGetD (breakerState system node_id) "open_until_ms" Json.null) 0

/-- Source `engine._with_resilience`: materialize the breaker entry, fail
fast with `CircuitOpen` while `open_until_ms > now`, else run the retry
loop with `max(0, retryAttempts) + 1` total attempts and store the final
breaker state back.  Returns the updated `system` map, the result, and
the number of invocations of the request thunk. -/
def withResilience (system : List (String × Json)) (node_id : String)
    (retry_attempts threshold openMs now_ms : Int) (openNow : Nat → Int)
    (fn : Nat → HttpOutcome) :
    List (String × Json) × Except String Json × Nat :=
  let circuits := breakerTable system
  let circuit := breakerState system node_id
  let openUntil := breakerOpenUntil system node_id
  if openUntil > now_ms then
    (objSet system "circuit_breakers" (Json.obj (objSet circuits node_id (Json.obj circuit))),
     Except.error ("Circuit open for node " ++ node_id ++ " until " ++ intRepr openUntil), 0)
  else
    let attemptsTotal := (max 0 retry_attempts).toNat + 1
    let r := resilienceLoop threshold openMs openNow fn circuit "Request failed" 0 attemptsTotal
    (objSet system "circuit_breakers" (Json.obj (objSet circuits node_id (Json.obj r.1))),
     r.2.1, r.2.2)

/-- Python `str(config.get(k, default))` as the paginator reads names. -/
def cfgStr (config : List (String × Json)) (k d : String) : String :=
  pyStrJson (objGetD config k (Json.str d))

/-- Python `_coerce_int(config.get(k), default)`. -/
def cfgInt (config : List (String × Json)) (k : String) (d : Int) : Int :=
  coerceInt (objGetD config k Json.null) d

/-- The stop test of the `cursor_param` strategy, Python
`cursor in (None, "", False)` (note `0 == False` in Python). -/
def cursorStops : Json → Bool
  | Json.null => true
  | Json.str s => s == ""
  | Json.bool b => !b
  | Json.num n => n == 0
  | _ => false

/-- The page-fetch loop of `engine._execute_paginate_request`, one
recursion step per iteration of its `for _ in range(max_pages)`.  `fetch
i url query` stands for the `_request_from_node` call of the `i`-th page
(resilience wrapper included); the loop accumulates the page responses
and the items extracted at `itemsPath` from each page body, and the
strategy state `(next_url, cursor, offset, page)` advances exactly as in
the source, stopping early on each strategy's stop condition. -/
def pagLoop (strategy : String) (pageSize : Int)
    (itemsPath nextPath hasMorePath cursorName pageName sizeName offsetName limitName : String)
    (fetch : Nat → Option String → List (String × Json) → Json) :
    Nat → Nat → Option String → Json → Int → Int → List Json × List Json
  | 0, _, _, _, _, _ => ([], [])
  | fuel + 1, reqIdx, next_url, cursor, offset, page =>
      let query : List (String × Json) :=
        if strategy == "next_url" then []
        else if strategy == "cursor_param" then
          let q0 := objSet [] sizeName (Json.num pageSize)
          match cursor with
          | Json.null => q0
          | _ => objSet q0 cursorName cursor
        else if strategy == "offset_limit" then
          objSet (objSet [] offsetName (Json.num offset)) limitName (Json.num pageSize)
        else
          objSet (objSet [] pageName (Json.num page)) sizeName (Json.num pageSize)
      let request_url : Option String := if strategy == "next_url" then next_url else none
      let response := fetch reqIdx request_url query
      let bodyRoot := Json.obj [("body", jGet response "body")]
      let items := extractItems (resolvePath bodyRoot itemsPath)
      let keepGoing : Option (Option String × Json × Int × Int) :=
        if strategy == "next_url" then
          match resolvePath bodyRoot nextPath with
          | Json.str s => if pyStrip s == "" then none else some (some s, cursor, offset, page)
          | _ => none
        else if strategy == "cursor_param" then
          let cursor' := resolvePath bodyRoot nextPath
          if cursorStops cursor' then none else some (next_url, cursor', offset, page)
        else if strategy == "offset_limit" then
          if (items.length : Int) < pageSize then none
          else some (next_url, cursor, offset + pageSize, page)
        else
          if coerceBool (resolvePath bodyRoot hasMorePath) then
            some (next_url, cursor, offset, page + 1)
          else none
      match keepGoing with
      | none => ([response], items)
      | some (nu, cu, off, pg) =>
          let r := pagLoop strategy pageSize itemsPath nextPath hasMorePath cursorName
            pageName sizeName offsetName limitName fetch fuel (reqIdx + 1) nu cu off pg
          (response :: r.1, items ++ r.2)

/-- Source `engine._execute_paginate_request` (minus the final
`last_response` bookkeeping on the context, which no claim touches):
read the config with its defaults and floors, run the loop at most
`max(1, maxPages)` times starting from the initial strategy state, and
assemble the result object.  `pagRun` is the loop call with the config
reads in place. -/
def pagRun (config : List (String × Json))
    (fetch : Nat → Option String → List (String × Json) → Json) : List Json × List Json :=
  pagLoop (cfgStr config "strategy" "next_url")
    (max 1 (cfgInt config "pageSize" 100))
    (cfgStr config "itemsPath" "body.items")
    (cfgStr config "nextCursorPath" "body.next")
    (cfgStr config "hasMorePath" "body.has_more")
    (cfgStr config "cursorParamName" "cursor")
    (cfgStr config "pageParamName" "page")
    (cfgStr config "pageSizeParamName" "page_size")
    (cfgStr config "offsetParamName" "offset")
    (cfgStr config "limitParamName" "limit")
    fetch (max 1 (cfgInt config "maxPages" 25)).toNat 0 none Json.null 0 1

/-- The result object of `_execute_paginate_request`:
`{ status_code, pages_fetched, items, pages }`. -/
def executePaginateRequest (config : List (String × Json))
    (fetch : Nat → Option String → List (String × Json) → Json) : Json :=
  let r := pagRun config fetch
  Json.obj [("status_code", Json.num (if r.1.isEmpty then 204 else 200)),
            ("pages_fetched", Json.num r.1.length),
            ("items", Json.arr r.2),
            ("pages", Json.arr r.1)]

/-- The per-page item extraction the paginator applies, named so the
concatenation law can refer to it. -/
def pageItems (itemsPath : String) (response : Json) : List Json :=
  extractItems (resolvePath (Json.obj [("body", jGet response "body")]) itemsPath)

/-- One row of `api.execution_events` for a fixed execution; the dense
`event_index` is the position in the event list. -/
structure PEvent where
  event_type : String
  node_id : Option String
  edge_id : Option String
  payload : Json

/-- One row of `api.executions` (timestamps dropped; ids are opaque
strings). -/
structure ExecRow where
  id : String
  workflow_version_id : String
  status : String
  current_node_id : Option String
  final_context_json : Option Json
  parent_execution_id : Option String
  trigger_type : Option String
  trigger_payload : Json
  idempotency_key : Option String
  correlation_id : Option String

/-- One row of `api.workflow_versions`. -/
structure VersionRow where
  id : String
  workflow_id : String
  version_number : Int
  is_published : Bool
  graph_json : Json

/-- The store's view of a single execution: its row, its event log in
index order, its snapshots and saved outputs.  The repository serializes
writes per execution, so the engine's effects on one execution are a
sequential state change on this record. -/
structure ExecState where
  row : ExecRow
  events : List PEvent
  snapshots : List (Nat × Json)
  saved : List (String × Json)

/-- Source `repository.append_event`: the next dense index is the list
length, the payload defaults to an empty dict. -/
def appendEvent (st : ExecState) (event_type : String) (node_id edge_id : Option String)
    (payload : Json) : ExecState :=
  { st with events := st.events ++ [⟨event_type, node_id, edge_id, payload⟩] }

/-- Source `repository.update_execution_status`: a terminal status
(`completed`/`failed`/`aborted`) overwrites `current_node_id` and
`final_context_json` with whatever was passed (`NULL` included); a
non-terminal status leaves `final_context_json` alone when the argument
is `None`. -/
def updateExecutionStatus (st : ExecState) (status : String) (current_node_id : Option String)
    (final_context_json : Option Json) : ExecState :=
  if status == "completed" || status == "failed" || status == "aborted" then
    let row := { st.row with
      status := status
      current_node_id := current_node_id
      final_context_json := final_context_json }
    { st with row := row }
  else
    match final_context_json with
    | none =>
        let row := { st.row with status := status, current_node_id := current_node_id }
        { st with row := row }
    | some c =>
        let row := { st.row with
          status := status
          current_node_id := current_node_id
          final_context_json := some c }
        { st with row := row }

/-- Source `repository.create_snapshot` (`ON CONFLICT DO NOTHING` on the
event index). -/
def createSnapshot (st : ExecState) (event_index : Nat) (context_json : Json) : ExecState :=
  if st.snapshots.any (fun p => p.1 == event_index) then st
  else { st with snapshots := st.snapshots ++ [(event_index, context_json)] }

/-- Source `engine._write_snapshot_if_needed`: at a positive next index
divisible by the snapshot interval, snapshot the context at `n - 1` and
log `SNAPSHOT_WRITTEN`. -/
def writeSnapshotIfNeeded (interval : Nat) (st : ExecState) (c : Ctx) : ExecState :=
  if st.events.length > 0 && st.events.length % interval == 0 then
    appendEvent (createSnapshot st (st.events.length - 1) c.toJson)
      "SNAPSHOT_WRITTEN" none none
      (Json.obj [("event_index", Json.num ((st.events.length : Int) - 1))])
  else st

/-- What one `_execute_node` dispatch does to the world of its own
execution: events appended to this execution's log (`INVOKE_WORKFLOW_*`
in the source), saved-output rows, the mutated context, and the output
or the raised error.  The run-loop theorems quantify over dispatchers of
this shape. -/
structure DispatchEffect where
  events : List PEvent
  saved : List (String × Json)
  ctx : Ctx
  result : Except String Json

/-- Json constant for an optional string (Python `str | None`). -/
def optStr : Option String → Json
  | some s => Json.str s
  | none => Json.null

/-- The `join` node of `engine._execute_node`: merge `system.parallel`
under the configured strategy into `vars.joined`.  `collect_list` (the
default) aliases the table itself, `last_write_wins` is a dict
comprehension copy of it, `merge_objects` folds the dict-valued payloads
together; the two latter raise on a non-dict table (`.items()` on a
non-dict), the first does not. -/
def executeJoin (evalExpr : String → Ctx → Json) (node : NodeDefL) (c : Ctx) : DispatchEffect :=
  let _ := evalExpr
  let strategy := pyStrJson (objGetD node.config "mergeStrategy" (Json.str "collect_list"))
  let parallel := objGetD c.system "parallel" (Json.obj [])
  let merged : Except String Json :=
    if strategy == "last_write_wins" then
      match parallel with
      | Json.obj kvs => Except.ok (Json.obj kvs)
      | _ => Except.error "AttributeError: items"
    else if strategy == "merge_objects" then
      match parallel with
      | Json.obj kvs =>
          Except.ok (Json.obj (kvs.foldl (fun flat kv =>
            match kv.2 with
            | Json.obj inner => inner.foldl (fun acc p => objSet acc p.1 p.2) flat
            | _ => flat) []))
      | _ => Except.error "AttributeError: values"
    else Except.ok parallel
  match merged with
  | Except.error msg => ⟨[], [], c, Except.error msg⟩
  | Except.ok m =>
      ⟨[], [], { c with vars := objSet c.vars "joined" m },
        Except.ok (Json.obj [("merge_strategy", Json.str strategy), ("joined", m)])⟩

/-- The `{ item_name, items, count }` payload a `for_each_parallel` node
stores under `system.parallel[node_id]`. -/
def parallelPayload (item_name : String) (items : List Json) : Json :=
  Json.obj [("item_name", Json.str item_name), ("items", Json.arr items),
            ("count", Json.num items.length)]

/-- The effective item name of a `for_each_parallel` node
(`str(config.get("itemName", "item")).strip() or "item"`). -/
def forItemName (node : NodeDefL) : String :=
  let itemName0 := pyStrip (pyStrJson (objGetD node.config "itemName" (Json.str "item")))
  if itemName0 == "" then "item" else itemName0

/-- The item list of a `for_each_parallel` node: `listExpr` resolved and
coerced to a list. -/
def forItems (evalExpr : String → Ctx → Json) (node : NodeDefL) (c : Ctx) : List Json :=
  extractItems (resolveValue evalExpr
    (pyStrJson (objGetD node.config "listExpr" (Json.str "vars.items"))) c)

/-- The `for_each_parallel` node of `engine._execute_node`: resolve
`listExpr`, coerce to a list, record the fan-out payload in
`system.parallel` and `vars[<item_name>_items]`. -/
def executeForEachParallel (evalExpr : String → Ctx → Json) (node : NodeDefL) (c : Ctx) :
    DispatchEffect :=
  let item_name := forItemName node
  let items := forItems evalExpr node c
  match objGet c.system "parallel" with
  | some (Json.obj kvs) =>
      let system' := objSet c.system "parallel"
        (Json.obj (objSet kvs node.id (parallelPayload item_name items)))
      let vars' := objSet c.vars (item_name ++ "_items") (Json.arr items)
      ⟨[], [], { c with vars := vars', system := system' },
        Except.ok (Json.obj [("item_name", Json.str item_name),
                             ("count", Json.num items.length)])⟩
  | none =>
      let system' := objSet c.system "parallel"
        (Json.obj [(node.id, parallelPayload item_name items)])
      let vars' := objSet c.vars (item_name ++ "_items") (Json.arr items)
      ⟨[], [], { c with vars := vars', system := system' },
        Except.ok (Json.obj [("item_name", Json.str item_name),
                             ("count", Json.num items.length)])⟩
  | some _ => ⟨[], [], c, Except.error "TypeError: item assignment"⟩

/-- Node types the restricted dispatcher below leaves to the opaque
dispatcher abstraction of the run-loop theorems: they perform HTTP I/O,
arbitrary scripting, or recursive child runs. -/
def effectfulNodeTypes : List String :=
  ["start_request", "form_request", "paginate_request", "python_request",
   "start_python", "invoke_workflow"]

/-- Source `engine._execute_node` restricted to the node types whose
semantics are pure over the context (`start`/`auth`/`parameters`,
`delay`, `define_variable`, `if`, `for_each_parallel`, `join`, `save`,
`end`, `raise_error`, and the unknown-type failure).  The effectful node
types are outside this restriction and are covered in the run-loop
theorems by quantifying over the dispatcher; concrete witness runs use
only the types modeled here.  The expression evaluator stays the opaque
`evalExpr` dependency. -/
def executeNodePure (evalExpr : String → Ctx → Json) (node : NodeDefL) (c : Ctx) :
    DispatchEffect :=
  if node.node_type == "auth" || node.node_type == "parameters" || node.node_type == "start" then
    ⟨[], [], c, Except.ok (Json.obj [("node_type", Json.str node.node_type)])⟩
  else if node.node_type == "delay" then
    let ms := max 0 (cfgInt node.config "ms" 0)
    ⟨[], [], c, Except.ok (Json.obj [("slept_ms", Json.num ms)])⟩
  else if node.node_type == "define_variable" then
    let name := pyStrip (pyStrJson (objGetD node.config "name" (Json.str "")))
    let source := pyStrJson (objGetD node.config "source" (Json.str "last_response"))
    let selector := pyStrJson (objGetD node.config "selector" (Json.str ""))
    let default_value := objGetD node.config "defaultValue" Json.null
    let base :=
      if source == "last_response" then objGetD c.system "last_response" Json.null
      else if source == "node_output" then Json.obj c.nodes
      else c.toJson
    let value0 := if selector != "" then resolvePath base selector else base
    let value :=
      match value0, default_value with
      | Json.null, Json.null => Json.null
      | Json.null, dv => dv
      | v, _ => v
    let vars' := if name != "" then objSet c.vars name value else c.vars
    ⟨[], [], { c with vars := vars' },
      Except.ok (Json.obj [("name", Json.str name), ("value", value)])⟩
  else if node.node_type == "if" then
    let expression := pyStrJson (objGetD node.config "expression" (Json.str "False"))
    let result := coerceBool (evalExpr expression c)
    ⟨[], [], c, Except.ok (Json.obj [("expression", Json.str expression),
                                     ("result", Json.bool result)])⟩
  else if node.node_type == "for_each_parallel" then
    executeForEachParallel evalExpr node c
  else if node.node_type == "join" then
    executeJoin evalExpr node c
  else if node.node_type == "save" then
    let key0 := pyStrip (pyStrJson (objGetD node.config "key" (Json.str "result")))
    let key := if key0 == "" then "result" else key0
    let source_path := pyStrJson (objGetD node.config "from" (Json.str ""))
    let value :=
      if source_path != "" then resolveValue evalExpr source_path c
      else objGetD c.system "last_response" Json.null
    match objGet c.system "saved_outputs" with
    | some (Json.obj kvs) =>
        ⟨[], [(key, value)],
          { c with system := objSet c.system "saved_outputs" (Json.obj (objSet kvs key value)) },
          Except.ok (Json.obj [("key", Json.str key), ("value", value)])⟩
    | none =>
        ⟨[], [(key, value)],
          { c with system := objSet c.system "saved_outputs" (Json.obj [(key, value)]) },
          Except.ok (Json.obj [("key", Json.str key), ("value", value)])⟩
    | some _ => ⟨[], [], c, Except.error "TypeError: item assignment"⟩
  else if node.node_type == "end" then
    ⟨[], [], c, Except.ok (Json.obj [("ended", Json.bool true)])⟩
  else if node.node_type == "raise_error" then
    let message := renderTemplateStr evalExpr c
      (pyStrJson (objGetD node.config "message" (Json.str "raise_error node triggered")))
    ⟨[], [], c, Except.error message⟩
  else if effectfulNodeTypes.contains node.node_type then
    ⟨[], [], c, Except.error ("unmodelled node type: " ++ node.node_type)⟩
  else
    ⟨[], [], c, Except.error ("Unsupported node type: " ++ node.node_type)⟩

/-- The engine's opaque dependencies at run time: the node dispatcher
and the snapshot interval (`settings.snapshot_interval`, default 25). -/
structure RunDeps where
  execNode : NodeDefL → Ctx → DispatchEffect
  interval : Nat

/-- The error every call of `run_execution` raises: its first statement
is `if call_depth > settings.max_call_depth:` (engine.py line 928), but
`config.Settings` declares only `database_url` and `snapshot_interval`,
so reading `settings.max_call_depth` raises `AttributeError`.  (Python
renders the class and attribute names in quotation marks; they are
omitted here.) -/
def maxCallDepthAttrError : String :=
  "AttributeError: Settings object has no attribute max_call_depth"

/-- How one entry into `run_execution` returned: a plain `return`, a
raised exception carrying its message, or (a model artifact marking
non-termination) exhausted fuel. -/
inductive RunOutcome where
  | finished : RunOutcome
  | raised (msg : String) : RunOutcome
  | outOfFuel : RunOutcome

/-- The `while True` loop of `engine.run_execution`, one recursion step
per iteration.  Each iteration marks the execution running, logs
`NODE_STARTED`, dispatches the node, and on success either terminates
(`end` node, no outgoing edge, breakpoint edge) or traverses the
selected edge; dispatch failure logs `NODE_FAILED`, marks the execution
failed and re-raises.  A `current_node_id` absent from the node table
re-raises the uncaught `KeyError` of `nodes[current_node_id]`. -/
def runLoop (deps : RunDeps) (nodes : List (String × NodeDefL))
    (outgoing : List (String × List EdgeL)) :
    Nat → String → Ctx → ExecState → ExecState × RunOutcome
  | 0, _, _, st => (st, RunOutcome.outOfFuel)
  | fuel + 1, current, c, st =>
      match nodeGet nodes current with
      | none => (st, RunOutcome.raised ("KeyError: " ++ current))
      | some node =>
          let st := updateExecutionStatus st "running" (some current) (some c.toJson)
          let st := appendEvent st "NODE_STARTED" (some current) none
            (Json.obj [("node_type", Json.str node.node_type), ("label", Json.str node.label)])
          let eff := deps.execNode node c
          let st := { st with events := st.events ++ eff.events, saved := st.saved ++ eff.saved }
          match eff.result with
          | Except.error msg =>
              let record := Json.obj [("status", Json.str "failed"),
                ("node_type", Json.str node.node_type),
                ("label", Json.str node.label),
                ("error", Json.str msg)]
              let c' := { eff.ctx with nodes := objSet eff.ctx.nodes current record }
              let st := appendEvent st "NODE_FAILED" (some current) none
                (Json.obj [("node_type", Json.str node.node_type), ("error", Json.str msg)])
              let st := updateExecutionStatus st "failed" (some current) (some c'.toJson)
              let st := writeSnapshotIfNeeded deps.interval st c'
              (st, RunOutcome.raised msg)
          | Except.ok output =>
              let record := Json.obj [("status", Json.str "success"),
                ("node_type", Json.str node.node_type),
                ("label", Json.str node.label),
                ("output", output)]
              let c' := { eff.ctx with nodes := objSet eff.ctx.nodes current record }
              let st := appendEvent st "NODE_SUCCEEDED" (some current) none
                (Json.obj [("node_type", Json.str node.node_type), ("output", output)])
              if node.node_type == "end" then
                let st := appendEvent st "RUN_COMPLETED" none none (Json.obj [])
                let st := updateExecutionStatus st "completed" (some current) (some c'.toJson)
                let st := writeSnapshotIfNeeded deps.interval st c'
                (st, RunOutcome.finished)
              else
                match selectNextEdge node outgoing output with
                | none =>
                    let st := appendEvent st "RUN_COMPLETED" none none
                      (Json.obj [("reason", Json.str "No outgoing edge"),
                                 ("at_node_id", Json.str current)])
                    let st := updateExecutionStatus st "completed" (some current) (some c'.toJson)
                    let st := writeSnapshotIfNeeded deps.interval st c'
                    (st, RunOutcome.finished)
                | some edge =>
                    if edge.breakpoint then
                      let st := appendEvent st "BREAKPOINT_PAUSED" none (some edge.id)
                        (Json.obj [("source", Json.str edge.source),
                                   ("target", Json.str edge.target)])
                      let st := updateExecutionStatus st "paused" (some edge.target)
                        (some c'.toJson)
                      let st := writeSnapshotIfNeeded deps.interval st c'
                      (st, RunOutcome.finished)
                    else
                      let st := appendEvent st "EDGE_TRAVERSED" none (some edge.id)
                        (Json.obj [("source", Json.str edge.source),
                                   ("target", Json.str edge.target)])
                      let st := writeSnapshotIfNeeded deps.interval st c'
                      runLoop deps nodes outgoing fuel edge.target c' st

/-- Source `engine._apply_parameter_defaults`: for each `parameters`
node, set each declared parameter's default into `vars` unless the name
is already bound. -/
def applyParameterDefaults (nodes : List (String × NodeDefL)) (c : Ctx) : Ctx :=
  nodes.foldl (fun c kv =>
    if kv.2.node_type == "parameters" then
      let params := match objGet kv.2.config "parameters" with
        | some (Json.arr xs) => xs
        | _ => []
      { c with vars := params.foldl (fun vars raw =>
          match raw with
          | Json.obj entry =>
              let name := pyStrip (pyStrJson (objGetD entry "name" (Json.str "")))
              if name == "" then vars
              else match objGet vars name with
                | some _ => vars
                | none => objSet vars name (objGetD entry "defaultValue" Json.null)
          | _ => vars) c.vars }
    else c) c

/-- The fresh initial context `run_execution` builds when no override is
given: `vars` is a copy of the input dict plus `vars.input`, `nodes` is
empty, `system` carries the run identity, then parameter defaults
apply. -/
def initialContext (nodes : List (String × NodeDefL)) (input_json : Json)
    (execution_id : String) (call_depth : Int)
    (parent_execution_id correlation_id : Option String) : Ctx :=
  let inputCopy := match input_json with | Json.obj kvs => Json.obj kvs | _ => Json.obj []
  let vars0 := match input_json with | Json.obj kvs => kvs | _ => []
  let vars1 := objSet vars0 "input" inputCopy
  applyParameterDefaults nodes
    { vars := vars1
      nodes := []
      system := [("execution_id", Json.str execution_id),
                 ("call_depth", Json.num call_depth),
                 ("parent_execution_id", optStr parent_execution_id),
                 ("correlation_id", optStr correlation_id),
                 ("saved_outputs", Json.obj []),
                 ("parallel", Json.obj [])] }

/-- Entry resolution of `run_execution`: `start_node_id or
graph.entry_node_id`, valid when it is a nonempty string naming a known
node (a falsy or non-string value, or an unknown id, is invalid). -/
def resolveEntry (graph : Json) (nodes : List (String × NodeDefL))
    (start_node_id : Option String) : Option String :=
  let cur0 : Json :=
    match start_node_id with
    | some s => if s != "" then Json.str s else jGet graph "entry_node_id"
    | none => jGet graph "entry_node_id"
  match cur0 with
  | Json.str s => if s != "" && (nodeGet nodes s).isSome then some s else none
  | _ => none

/-- Source `engine.run_execution` as staged.  Its first statement is
the depth check `if call_depth > settings.max_call_depth:`, and
`config.Settings` has no `max_call_depth` field, so evaluating the
condition raises `AttributeError` on every call — before any event is
appended, any status written, or the loop entered.  Every call
therefore returns the state unchanged with that raise; the rest of the
function body, which this error makes unreachable, is translated
separately as `runExecutionBody`. -/
def runExecution (deps : RunDeps) (workflow_version : VersionRow) (input_json : Json)
    (call_depth : Int) (parent_execution_id correlation_id : Option String)
    (start_node_id : Option String) (context_override : Option Ctx) (is_resume : Bool)
    (execution_id : String) (fuel : Nat) (st : ExecState) : ExecState × RunOutcome :=
  let _ := (deps, workflow_version, input_json, call_depth, parent_execution_id,
    correlation_id, start_node_id, context_override, is_resume, execution_id, fuel)
  (st, RunOutcome.raised maxCallDepthAttrError)

/-- The body of `run_execution` past the raising settings read: the
depth comparison (against the bound `max_call_depth` the comparison
names, passed here as an explicit parameter since the staged
configuration cannot supply it), graph indexing, entry resolution
(failing the run on a missing or unknown entry), context construction
or override, `RUN_STARTED` unless resuming, then the loop.  As staged
this code never runs — `runExecution` raises first — so no claim rests
on it; it is kept as the translation of engine.py lines 928-1098 that
the run-loop lemmas below describe. -/
def runExecutionBody (deps : RunDeps) (maxDepth : Int) (workflow_version : VersionRow)
    (input_json : Json) (call_depth : Int)
    (parent_execution_id correlation_id : Option String)
    (start_node_id : Option String) (context_override : Option Ctx) (is_resume : Bool)
    (execution_id : String) (fuel : Nat) (st : ExecState) : ExecState × RunOutcome :=
  if call_depth > maxDepth then
    (st, RunOutcome.raised ("Maximum workflow call depth exceeded: " ++ intRepr maxDepth))
  else
    let graph := workflow_version.graph_json
    let indexed := indexGraph graph
    let nodes := indexed.1
    let outgoing := indexed.2
    match resolveEntry graph nodes start_node_id with
    | none =>
        let st := appendEvent st "NODE_FAILED" none none
          (Json.obj [("error", Json.str "Missing or invalid entry_node_id")])
        let st := updateExecutionStatus st "failed" none none
        (st, RunOutcome.finished)
    | some current =>
        let c := match context_override with
          | some c => c
          | none => initialContext nodes input_json execution_id call_depth
              parent_execution_id correlation_id
        let st :=
          if is_resume then st
          else appendEvent st "RUN_STARTED" none none
            (Json.obj [("workflow_version_id", Json.str workflow_version.id),
                       ("call_depth", Json.num call_depth),
                       ("parent_execution_id", optStr parent_execution_id),
                       ("correlation_id", optStr correlation_id)])
        runLoop deps nodes outgoing fuel current c st

/-- The context the resume controller reconstructs from the stored
`final_context_json`: an absent or non-dict value becomes the empty
context. -/
def resumeContext (st : ExecState) : Ctx :=
  Ctx.fromJson
    (match st.row.final_context_json with
     | some (Json.obj kvs) => Json.obj kvs
     | _ => Json.obj [])

/-- The `input_json` handed back to the run loop on resume
(`context.vars.get("input", {})` when it is a dict). -/
def resumeInput (st : ExecState) : Json :=
  match objGet (resumeContext st).vars "input" with
  | some (Json.obj kvs) => Json.obj kvs
  | _ => Json.obj []

/-- The call depth read back from `system.call_depth` on resume. -/
def resumeDepth (st : ExecState) : Int :=
  coerceInt (objGetD (resumeContext st).system "call_depth" Json.null) 0

/-- Source `engine.continue_execution_from_pause`: `abort` logs
`RUN_ABORTED` and marks the row aborted unconditionally; any other
action reconstructs the context from `final_context_json` (an absent or
non-dict value becomes the empty context), requires a usable
`current_node_id` (raising the `NoResumeCursor` error otherwise), logs
`RUN_RESUMED` and calls `run_execution` at the stored cursor with
`is_resume = true` — which as staged raises the `max_call_depth`
`AttributeError` before reaching the loop.  The execution row is the
one already loaded by the caller, so the source's not-found branch
cannot fire here. -/
def continueExecutionFromPause (deps : RunDeps) (workflow_version : VersionRow)
    (action : String) (fuel : Nat) (st : ExecState) : ExecState × RunOutcome :=
  if action == "abort" then
    let st := appendEvent st "RUN_ABORTED" none none (Json.obj [])
    let st := updateExecutionStatus st "aborted" none none
    (st, RunOutcome.finished)
  else
    match st.row.current_node_id with
    | none => (st, RunOutcome.raised "Execution has no resume node")
    | some s =>
        if s == "" then (st, RunOutcome.raised "Execution has no resume node")
        else
          let st' := appendEvent st "RUN_RESUMED" none none
            (Json.obj [("mode", Json.str action), ("resume_node_id", Json.str s)])
          runExecution deps workflow_version (resumeInput st) (resumeDepth st)
            st.row.parent_execution_id st.row.correlation_id
            (some s) (some (resumeContext st)) true st.row.id fuel st'

/-- Source `main._debug_command`: 404 on a missing execution, 409 when
the execution is not paused *unless the action is `abort`*, 404 on a
missing workflow version, then hand over to the resume controller. -/
def debugCommand (execution : Option ExecState) (version : Option VersionRow)
    (action : String) (deps : RunDeps) (fuel : Nat) :
    Except (Nat × String) (ExecState × RunOutcome) :=
  match execution with
  | none => Except.error (404, "Execution not found")
  | some st =>
      if st.row.status != "paused" && action != "abort" then
        Except.error (409, "Execution is not paused")
      else
        match version with
        | none => Except.error (404, "Workflow version not found")
        | some v => Except.ok (continueExecutionFromPause deps v action fuel st)

/-- The `try/except` around `run_execution` in `main.create_execution`:
a raised run appends one more `NODE_FAILED` (without a node id) to the
same execution's log and marks the row failed. -/
def createExecutionRun (deps : RunDeps) (workflow_version : VersionRow) (input_json : Json)
    (call_depth : Int) (parent_execution_id correlation_id : Option String)
    (execution_id : String) (fuel : Nat) (st : ExecState) : ExecState × RunOutcome :=
  let r := runExecution deps workflow_version input_json call_depth parent_execution_id
    correlation_id none none false execution_id fuel st
  match r.2 with
  | RunOutcome.raised msg =>
      let st := appendEvent r.1 "NODE_FAILED" none none
        (Json.obj [("error", Json.str msg)])
      (updateExecutionStatus st "failed" none none, RunOutcome.raised msg)
  | _ => r

/-- The persistence state the create-execution endpoint sees: workflow
versions and execution rows.  (Events and snapshots live in `ExecState`;
the endpoint-level claims are about rows.) -/
structure Db where
  versions : List VersionRow
  executions : List ExecRow

/-- Source `repository.get_workflow_version`: lookup by primary key. -/
def getWorkflowVersionDb (db : Db) (id : String) : Option VersionRow :=
  db.versions.find? (fun v => v.id == id)

/-- The `ORDER BY version_number DESC LIMIT 1` row of a list. -/
def pickLatest : List VersionRow → Option VersionRow
  | [] => none
  | v :: vs =>
      match pickLatest vs with
      | none => some v
      | some w => if w.version_number > v.version_number then some w else some v

/-- Source `repository.get_latest_published_workflow_version`. -/
def getLatestPublishedWorkflowVersion (db : Db) (workflow_id : String) : Option VersionRow :=
  pickLatest (db.versions.filter (fun v => v.workflow_id == workflow_id && v.is_published))

/-- Source `repository.get_latest_workflow_version`. -/
def getLatestWorkflowVersion (db : Db) (workflow_id : String) : Option VersionRow :=
  pickLatest (db.versions.filter (fun v => v.workflow_id == workflow_id))

/-- Source `repository.get_execution_by_idempotency_key` (`LIMIT 1` in
row order). -/
def getExecutionByIdempotencyKey (db : Db) (key : String) : Option ExecRow :=
  db.executions.find? (fun e => e.idempotency_key == some key)

/-- The `POST /executions` request body, `models.ExecutionCreate` (the
pydantic validator separately requires exactly one of the two target
ids; the claims below hold with or without that restriction). -/
structure ExecutionCreate where
  workflow_version_id : Option String
  workflow_id : Option String
  published_only : Bool
  input_json : Json
  debug_mode : Bool
  trigger_type : Option String
  trigger_payload : Json
  idempotency_key : Option String
  correlation_id : Option String
  parent_execution_id : Option String

/-- Source `main._resolve_workflow_version_for_execution`: an explicit
version id wins; a workflow id resolves to the latest *published*
version on both branches of the `published_only` test (the source's
else-branch deliberately repeats the published lookup). -/
def resolveWorkflowVersionForExecution (db : Db) (payload : ExecutionCreate) :
    Option VersionRow :=
  match payload.workflow_version_id with
  | some vid => getWorkflowVersionDb db vid
  | none =>
      match payload.workflow_id with
      | some wf =>
          if payload.published_only then getLatestPublishedWorkflowVersion db wf
          else getLatestPublishedWorkflowVersion db wf
      | none => none

/-- Source `main.create_execution` at row level: resolve the version
(404 when none), return the existing row untouched on an idempotency-key
hit, else insert a `running` row and run the workflow (the run itself,
with its catch-all, abstracted as `runner`), finally re-reading the row.
The returned flag records whether the workflow was run. -/
def createExecutionEndpoint (db : Db) (payload : ExecutionCreate) (newId : String)
    (runner : Db → ExecRow → VersionRow → Int → Db) :
    Except (Nat × String) (Db × ExecRow × Bool) :=
  match resolveWorkflowVersionForExecution db payload with
  | none => Except.error (404, "Workflow version not found")
  | some version =>
      let keyHit : Option ExecRow :=
        match payload.idempotency_key with
        | some k => if k != "" then getExecutionByIdempotencyKey db k else none
        | none => none
      match keyHit with
      | some existing => Except.ok (db, existing, false)
      | none =>
          let row : ExecRow :=
            { id := newId
              workflow_version_id := version.id
              status := "running"
              current_node_id := none
              final_context_json := none
              parent_execution_id := payload.parent_execution_id
              trigger_type := payload.trigger_type
              trigger_payload := payload.trigger_payload
              idempotency_key := payload.idempotency_key
              correlation_id := payload.correlation_id }
          let db1 : Db := { db with executions := db.executions ++ [row] }
          let call_depth : Int :=
            match objGetD (match payload.trigger_payload with
                           | Json.obj kvs => kvs
                           | _ => []) "call_depth" (Json.num 0) with
            | Json.num n => n
            | Json.bool b => if b then 1 else 0
            | _ => 0
          let db2 := runner db1 row version call_depth
          let refreshed := (db2.executions.find? (fun e => e.id == newId)).getD row
          Except.ok (db2, refreshed, true)

/-- The raw edge array of a graph, as iterated by `_index_graph`. -/
def rawEdgesOf (graph : Json) : List Json :=
  match jGet graph "edges" with | Json.arr xs => xs | _ => []

/-- Concrete input for the C5 witness: a false-labelled edge listed
before the true-labelled one. -/
def c5edgeFalse : Json :=
  Json.obj [("id", Json.str "e1"), ("source", Json.str "if1"), ("target", Json.str "no"),
            ("data", Json.obj [("condition", Json.str "false")])]

/-- Concrete input for the C5 witness: the matching true-labelled edge. -/
def c5edgeTrue : Json :=
  Json.obj [("id", Json.str "e2"), ("source", Json.str "if1"), ("target", Json.str "yes"),
            ("data", Json.obj [("condition", Json.str "true")])]

/-- Concrete two-edge graph for the C5 witness. -/
def c5graph : Json := Json.obj [("edges", Json.arr [c5edgeFalse, c5edgeTrue])]

/-- Trivial expression-evaluator oracle used by concrete witnesses whose
graphs never reach the evaluator. -/
def evalNone (s : String) (c : Ctx) : Json :=
  let _ := s
  let _ := c
  Json.null

/-- Concrete store for the C9 witness: one workflow with a single
unpublished version. -/
def c9db : Db :=
  { versions := [{ id := "v1", workflow_id := "wf1", version_number := 1,
                   is_published := false, graph_json := Json.obj [] }]
    executions := [] }

/-- Concrete create-execution request for the C9 witness: targets the
workflow by id with `published_only = false`. -/
def c9payload : ExecutionCreate :=
  { workflow_version_id := none
    workflow_id := some "wf1"
    published_only := false
    input_json := Json.obj []
    debug_mode := false
    trigger_type := none
    trigger_payload := Json.obj []
    idempotency_key := none
    correlation_id := none
    parent_execution_id := none }

/-- Trivial runner oracle for endpoint-level witnesses (never reached on
the paths under test). -/
def idRunner (db : Db) (row : ExecRow) (version : VersionRow) (depth : Int) : Db :=
  let _ := row
  let _ := version
  let _ := depth
  db

/-- Always-succeeding request thunk for the C4 witness. -/
def c4fn (i : Nat) : HttpOutcome :=
  let _ := i
  HttpOutcome.resp (Json.obj [("status_code", Json.num 200)])

/-- Constant wall clock for the C4 witness. -/
def c4openNow (i : Nat) : Int :=
  let _ := i
  0

/-- Concrete context for the C7 witness: `vars.x` holds an object. -/
def c7ctx : Ctx :=
  { vars := [("x", Json.obj [("a", Json.num 1)])]
    nodes := []
    system := [] }

/-- Concrete context for the C10 witness: one recorded fan-out. -/
def c10ctx : Ctx :=
  { vars := [("x", Json.num 1)]
    nodes := []
    system := [("parallel", Json.obj [("fe1",
      Json.obj [("item_name", Json.str "item"), ("items", Json.arr [Json.num 7]),
                ("count", Json.num 1)])])] }

/-- The lifecycle event types of spec invariant 3. -/
def lifecycleTypes : List String := ["RUN_COMPLETED", "RUN_ABORTED", "NODE_FAILED"]

/-- Whether a log suffix is lifecycle-clean: after the first lifecycle
event (`RUN_COMPLETED`/`RUN_ABORTED`/`NODE_FAILED`) only
`SNAPSHOT_WRITTEN` bookkeeping may follow, so at most one lifecycle
event occurs and it is last up to snapshot records. -/
def lifecycleGood : List PEvent → Bool
  | [] => true
  | e :: rest =>
      if lifecycleTypes.contains e.event_type then
        rest.all (fun e' => e'.event_type == "SNAPSHOT_WRITTEN")
      else lifecycleGood rest

/-- The default engine dependencies for concrete runs: the pure-node
dispatcher and the default snapshot interval 25. -/
def basicDeps : RunDeps :=
  { execNode := executeNodePure evalNone, interval := 25 }

/-- A fresh `running` execution row used by concrete runs. -/
def freshRow (eid vid : String) : ExecRow :=
  { id := eid, workflow_version_id := vid, status := "running", current_node_id := none,
    final_context_json := none, parent_execution_id := none, trigger_type := none,
    trigger_payload := Json.obj [], idempotency_key := none, correlation_id := none }

/-- Graph for the C1 counterexample's execution.  (Its content is never
reached: `run_execution` raises before reading the graph.) -/
def c1graph : Json :=
  Json.obj [("entry_node_id", Json.str "boom"),
            ("nodes", Json.arr [Json.obj [("id", Json.str "boom"),
              ("data", Json.obj [("nodeType", Json.str "raise_error"),
                ("label", Json.str "Boom"),
                ("config", Json.obj [("message", Json.str "kaput")])])]]),
            ("edges", Json.arr [])]

/-- Version row wrapping `c1graph`. -/
def c1version : VersionRow :=
  { id := "v1", workflow_id := "wf1", version_number := 1, is_published := true,
    graph_json := c1graph }

/-- Store state of the C1 counterexample's execution before the run. -/
def c1state : ExecState :=
  { row := freshRow "e1" "v1", events := [], snapshots := [], saved := [] }

/-- The C1 execution after creation and run: `run_execution` raised the
`max_call_depth` `AttributeError`, so the handler appended one
`NODE_FAILED` and marked the row failed. -/
def c1s1 : ExecState :=
  (createExecutionRun basicDeps c1version (Json.obj []) 0 none none "e1" 5 c1state).1

/-- The C1 execution after a first abort request. -/
def c1s2 : ExecState :=
  (continueExecutionFromPause basicDeps c1version "abort" 1 c1s1).1

/-- The C1 execution after a second abort request. -/
def c1s3 : ExecState :=
  (continueExecutionFromPause basicDeps c1version "abort" 1 c1s2).1

/-- An execution row already holding idempotency key `k`, for C2. -/
def c2row : ExecRow :=
  { id := "e0", workflow_version_id := "v1", status := "completed",
    current_node_id := none, final_context_json := none, parent_execution_id := none,
    trigger_type := none, trigger_payload := Json.obj [], idempotency_key := some "k",
    correlation_id := none }

/-- Store for the C2 counterexample: the key exists but no workflow
version does. -/
def c2db : Db := { versions := [], executions := [c2row] }

/-- Create request for the C2 counterexample: an unknown version id
together with the existing idempotency key. -/
def c2payload : ExecutionCreate :=
  { workflow_version_id := some "vX"
    workflow_id := none
    published_only := true
    input_json := Json.obj []
    debug_mode := false
    trigger_type := none
    trigger_payload := Json.obj []
    idempotency_key := some "k"
    correlation_id := none
    parent_execution_id := none }

/-- Version row for the C2 witness store. -/
def c2version : VersionRow :=
  { id := "v1", workflow_id := "wf1", version_number := 1, is_published := true,
    graph_json := Json.obj [] }

/-- Store for the C2 witness: the version resolves and the key exists. -/
def c2dbOk : Db := { versions := [c2version], executions := [c2row] }

/-- Create request for the C2 witness: resolvable version id plus the
existing idempotency key. -/
def c2payloadOk : ExecutionCreate :=
  { workflow_version_id := some "v1"
    workflow_id := none
    published_only := true
    input_json := Json.obj []
    debug_mode := false
    trigger_type := none
    trigger_payload := Json.obj []
    idempotency_key := some "k"
    correlation_id := none
    parent_execution_id := none }

/-- Single-`end`-node graph for the C3 counterexample. -/
def c3graph : Json :=
  Json.obj [("entry_node_id", Json.str "end1"),
            ("nodes", Json.arr [Json.obj [("id", Json.str "end1"),
              ("data", Json.obj [("nodeType", Json.str "end"),
                ("label", Json.str "End"), ("config", Json.obj [])])]]),
            ("edges", Json.arr [])]

/-- Version row wrapping `c3graph`. -/
def c3version : VersionRow :=
  { id := "v3", workflow_id := "wf3", version_number := 1, is_published := true,
    graph_json := c3graph }

/-- A paused execution with a stored cursor but *no* stored
`final_context_json`, for the C3 counterexample. -/
def c3state : ExecState :=
  { row := { id := "e3", workflow_version_id := "v3", status := "paused",
             current_node_id := some "end1", final_context_json := none,
             parent_execution_id := none, trigger_type := none,
             trigger_payload := Json.obj [], idempotency_key := none,
             correlation_id := none }
    events := [], snapshots := [], saved := [] }

/-- A paused execution with no stored cursor at all, for the C3
witness. -/
def c3stateNoCursor : ExecState :=
  { row := { id := "e4", workflow_version_id := "v3", status := "paused",
             current_node_id := none, final_context_json := none,
             parent_execution_id := none, trigger_type := none,
             trigger_payload := Json.obj [], idempotency_key := none,
             correlation_id := none }
    events := [], snapshots := [], saved := [] }

/-- A completed (terminal, not paused) execution, for the C8
counterexample. -/
def c8state : ExecState :=
  { row := { id := "e8", workflow_version_id := "v3", status := "completed",
             current_node_id := some "end1", final_context_json := none,
             parent_execution_id := none, trigger_type := none,
             trigger_payload := Json.obj [], idempotency_key := none,
             correlation_id := none }
    events := [], snapshots := [], saved := [] }

/-!
## Theorems

Shared lemmas first, then one theorem (plus witness or counterexample)
per claim of the specification audit.
-/

theorem outGet_outPut (acc : List (String × List EdgeL)) (k : String) (e : EdgeL)
    (s : String) :
    outGet (outPut acc k e) s = if k = s then outGet acc s ++ [e] else outGet acc s := by
  induction acc with
  | nil =>
      by_cases h : k = s <;> simp [outPut, outGet, h]
  | cons hd tl ih =>
      obtain ⟨k', es⟩ := hd
      by_cases hk : k' = k
      · by_cases hs : k' = s <;> simp [outPut, outGet, hk, hs, hk ▸ hs]
      · by_cases hs : k' = s
        · subst hs
          have hks : ¬ k = k' := fun h => hk h.symm
          simp [outPut, outGet, hk, hks, ih]
        · simp [outPut, outGet, hk, hs, ih]

theorem outGet_foldl (es : List EdgeL) (acc : List (String × List EdgeL)) (s : String) :
    outGet (es.foldl (fun a e => outPut a e.source e) acc) s
      = outGet acc s ++ (es.filter (fun e => e.source == s)) := by
  induction es generalizing acc with
  | nil => simp
  | cons e rest ih =>
      by_cases h : e.source = s
      · simp [List.foldl_cons, ih, outGet_outPut, h]
      · simp [List.foldl_cons, ih, outGet_outPut, h]

theorem outGet_indexGraph (graph : Json) (s : String) :
    outGet (indexGraph graph).2 s
      = ((rawEdgesOf graph).map normalizeEdge).filter (fun e => e.source == s) := by
  have h := outGet_foldl ((rawEdgesOf graph).map normalizeEdge) [] s
  simpa [indexGraph, rawEdgesOf, List.foldl_map, outGet] using h

/-- C5.  Edge selection: with at least one outgoing edge (in the order
the edges appear in the graph's source array), an `if` node whose output
carries boolean result `b` selects the first outgoing edge whose
condition is `"true"` (when `b`) respectively `"false"` (when not `b`),
falling back to the first outgoing edge when no condition matches; every
non-`if` node selects the first outgoing edge. -/
theorem claim5_edge_selection (graph : Json) (node : NodeDefL) (output : Json) (b : Bool)
    (hres : jGet output "result" = Json.bool b) :
    outGet (indexGraph graph).2 node.id
        = ((rawEdgesOf graph).map normalizeEdge).filter (fun e => e.source == node.id) ∧
    ∀ e0 rest,
      ((rawEdgesOf graph).map normalizeEdge).filter (fun e => e.source == node.id)
          = e0 :: rest →
      (node.node_type ≠ "if" →
        selectNextEdge node (indexGraph graph).2 output = some e0) ∧
      (node.node_type = "if" →
        ∀ e, (e0 :: rest).find?
            (fun e => e.condition == some (if b then "true" else "false")) = some e →
          selectNextEdge node (indexGraph graph).2 output = some e) ∧
      (node.node_type = "if" →
        (e0 :: rest).find?
            (fun e => e.condition == some (if b then "true" else "false")) = none →
          selectNextEdge node (indexGraph graph).2 output = some e0) := by
  refine ⟨outGet_indexGraph graph node.id, ?_⟩
  intro e0 rest hedges
  have hsel : outGet (indexGraph graph).2 node.id = e0 :: rest := by
    rw [outGet_indexGraph graph node.id, hedges]
  constructor
  · intro hty
    simp [selectNextEdge, hsel, hty]
  constructor
  · intro hty e hfind
    simp [selectNextEdge, hsel, hty, hres, hfind, coerceBool]
  · intro hty hfind
    simp [selectNextEdge, hsel, hty, hres, hfind, coerceBool]

/-- Witness for C5 at a concrete two-edge `if` graph: the false-labelled
edge listed first is skipped in favour of the first condition match. -/
theorem claim5_edge_selection_witness :
    jGet (Json.obj [("result", Json.bool true)]) "result" = Json.bool true ∧
    selectNextEdge ⟨"if1", "if", "Gate", []⟩ (indexGraph c5graph).2
        (Json.obj [("result", Json.bool true)])
      = some (normalizeEdge c5edgeTrue) := by
  constructor
  · rfl
  · have h := claim5_edge_selection c5graph ⟨"if1", "if", "Gate", []⟩
      (Json.obj [("result", Json.bool true)]) true rfl
    exact (h.2 (normalizeEdge c5edgeFalse) [normalizeEdge c5edgeTrue] (by rfl)).2.1
      rfl (normalizeEdge c5edgeTrue) (by rfl)

theorem objGet_objSet (m : List (String × Json)) (k : String) (v : Json) :
    objGet (objSet m k v) k = some v := by
  induction m with
  | nil => simp [objSet, objGet]
  | cons hd tl ih =>
      by_cases h : hd.1 = k
      · simp [objSet, objGet, h]
      · simp [objSet, objGet, h, ih]

theorem objGet_objSet_ne (m : List (String × Json)) (k k' : String) (v : Json)
    (h : k ≠ k') : objGet (objSet m k v) k' = objGet m k' := by
  induction m with
  | nil => simp [objSet, objGet, h]
  | cons hd tl ih =>
      by_cases h1 : hd.1 = k
      · subst h1
        simp [objSet, objGet, h]
      · simp [objSet, objGet, h1, ih]

/-- C9.  Resolving an execution target given by `workflow_id` always
goes through the latest *published* version, whatever `published_only`
says (the source's else-branch repeats the published lookup on purpose);
in particular, when the workflow has only unpublished versions, the
create call answers 404 `Workflow version not found` even with
`published_only = false`. -/
theorem claim9_published_only_ignored (db : Db) (payload : ExecutionCreate) (w : String)
    (hv : payload.workflow_version_id = none) (hw : payload.workflow_id = some w) :
    resolveWorkflowVersionForExecution db payload = getLatestPublishedWorkflowVersion db w ∧
    ((∀ v ∈ db.versions, v.workflow_id = w → v.is_published = false) →
      ∀ newId runner, createExecutionEndpoint db payload newId runner
        = Except.error (404, "Workflow version not found")) := by
  have hres : resolveWorkflowVersionForExecution db payload
      = getLatestPublishedWorkflowVersion db w := by
    unfold resolveWorkflowVersionForExecution
    rw [hv, hw]
    by_cases hpub : payload.published_only <;> simp [hpub]
  refine ⟨hres, ?_⟩
  intro hunpub newId runner
  have hfilter : db.versions.filter (fun v => v.workflow_id == w && v.is_published) = [] := by
    refine List.filter_eq_nil_iff.mpr ?_
    intro v hvin
    by_cases hid : v.workflow_id = w
    · simp [hid, hunpub v hvin hid]
    · simp [hid]
  have hnone : getLatestPublishedWorkflowVersion db w = none := by
    unfold getLatestPublishedWorkflowVersion
    rw [hfilter]
    rfl
  unfold createExecutionEndpoint
  rw [hres, hnone]

/-- Witness for C9: a workflow whose only version is unpublished is not
runnable by `workflow_id` even with `published_only = false`. -/
theorem claim9_published_only_ignored_witness :
    c9payload.workflow_version_id = none ∧ c9payload.workflow_id = some "wf1" ∧
    createExecutionEndpoint c9db c9payload "e1" idRunner
      = Except.error (404, "Workflow version not found") := by
  refine ⟨rfl, rfl, ?_⟩
  exact (claim9_published_only_ignored c9db c9payload "wf1" rfl rfl).2
    (by decide) "e1" idRunner

/-- C10.  With `system.parallel` holding a table `kvs` (the engine only
ever stores a dict there), a `join` under `collect_list` and a `join`
under `last_write_wins` bind the very same value to `vars.joined`,
namely the table itself; and that table maps each executed
`for_each_parallel` node's id to its `{ item_name, items, count }`
payload dict, not to a bare list of items. -/
theorem claim10_join_strategies (evalE : String → Ctx → Json) (c : Ctx)
    (kvs : List (String × Json))
    (hpar : objGetD c.system "parallel" (Json.obj []) = Json.obj kvs)
    (i1 l1 i2 l2 : String) :
    ((executeJoin evalE ⟨i1, "join", l1, [("mergeStrategy", Json.str "collect_list")]⟩ c).ctx.vars
       = (executeJoin evalE
           ⟨i2, "join", l2, [("mergeStrategy", Json.str "last_write_wins")]⟩ c).ctx.vars) ∧
    ((executeJoin evalE ⟨i1, "join", l1, [("mergeStrategy", Json.str "collect_list")]⟩ c).ctx.vars
       = objSet c.vars "joined" (Json.obj kvs)) ∧
    (∀ (node : NodeDefL) (c0 : Ctx) (kvs0 : List (String × Json)),
       objGet c0.system "parallel" = some (Json.obj kvs0) →
       objGet (executeForEachParallel evalE node c0).ctx.system "parallel"
         = some (Json.obj (objSet kvs0 node.id
             (parallelPayload (forItemName node) (forItems evalE node c0))))) := by
  have hpar' : (objGet c.system "parallel").getD (Json.obj []) = Json.obj kvs := hpar
  refine ⟨?_, ?_, ?_⟩
  · simp [executeJoin, objGetD, hpar', pyStrJson, objGet]
  · simp [executeJoin, objGetD, hpar', pyStrJson, objGet]
  · intro node c0 kvs0 hpar0
    simp [executeForEachParallel, hpar0, objGet_objSet]

/-- Witness for C10 at a context with one recorded fan-out. -/
theorem claim10_join_strategies_witness :
    objGetD c10ctx.system "parallel" (Json.obj [])
        = Json.obj [("fe1", Json.obj [("item_name", Json.str "item"),
            ("items", Json.arr [Json.num 7]), ("count", Json.num 1)])] ∧
    (executeJoin evalNone ⟨"j1", "join", "Join", [("mergeStrategy", Json.str "collect_list")]⟩
        c10ctx).ctx.vars
      = (executeJoin evalNone
          ⟨"j2", "join", "Join2", [("mergeStrategy", Json.str "last_write_wins")]⟩
          c10ctx).ctx.vars := by
  refine ⟨rfl, ?_⟩
  exact (claim10_join_strategies evalNone c10ctx
    [("fe1", Json.obj [("item_name", Json.str "item"),
        ("items", Json.arr [Json.num 7]), ("count", Json.num 1)])]
    rfl "j1" "Join" "j2" "Join2").1

theorem resilienceLoop_count_le (threshold openMs : Int) (openNow : Nat → Int)
    (fn : Nat → HttpOutcome) :
    ∀ (rem : Nat) (circuit : List (String × Json)) (lastErr : String) (idx : Nat),
      (resilienceLoop threshold openMs openNow fn circuit lastErr idx rem).2.2 ≤ rem := by
  intro rem
  induction rem with
  | zero => intro circuit lastErr idx; simp [resilienceLoop]
  | succ n ih =>
      intro circuit lastErr idx
      unfold resilienceLoop
      cases hfn : fn idx with
      | resp response =>
          by_cases hs : coerceInt (jGet response "status_code") 0 ≥ 500
          · simp only [hfn, hs, if_pos]
            exact Nat.succ_le_succ (ih _ _ _)
          · simp only [hfn, hs, if_neg, ite_false]
            omega
      | raised msg =>
          simp only [hfn]
          exact Nat.succ_le_succ (ih _ _ _)

theorem resilienceLoop_success_circuit (threshold openMs : Int) (openNow : Nat → Int)
    (fn : Nat → HttpOutcome) :
    ∀ (rem : Nat) (circuit : List (String × Json)) (lastErr : String) (idx : Nat)
      (resp : Json),
      (resilienceLoop threshold openMs openNow fn circuit lastErr idx rem).2.1
          = Except.ok resp →
      ∃ cpre, (resilienceLoop threshold openMs openNow fn circuit lastErr idx rem).1
          = objSet (objSet cpre "failures" (Json.num 0)) "open_until_ms" (Json.num 0) := by
  intro rem
  induction rem with
  | zero => intro circuit lastErr idx resp h; simp [resilienceLoop] at h
  | succ n ih =>
      intro circuit lastErr idx resp h
      unfold resilienceLoop at h ⊢
      cases hfn : fn idx with
      | resp response =>
          by_cases hs : coerceInt (jGet response "status_code") 0 ≥ 500
          · simp only [hfn, hs, if_pos] at h ⊢
            exact ih _ _ _ _ h
          · simp only [hfn, hs, if_neg, ite_false] at h ⊢
            exact ⟨circuit, rfl⟩
      | raised msg =>
          simp only [hfn] at h ⊢
          exact ih _ _ _ _ h

/-- C4.  The resilience wrapper around every HTTP-executing node: while
the node's breaker has `open_until_ms` in the future the call fails at
once with the `CircuitOpen` error and the request thunk is never
invoked; otherwise the thunk runs at most `retryAttempts + 1` times; and
a success stores back a breaker with `failures = 0` and
`open_until_ms = 0`.  (`circuitsWF` keeps the context in the domain
where the source's `setdefault`/`get` chain does not itself raise.) -/
theorem claim4_circuit_breaker (system : List (String × Json)) (node_id : String)
    (retry threshold openMs now : Int) (openNow : Nat → Int) (fn : Nat → HttpOutcome)
    (hwf : circuitsWF system node_id = true) (hretry : 0 ≤ retry) :
    (breakerOpenUntil system node_id > now →
      (withResilience system node_id retry threshold openMs now openNow fn).2.1
          = Except.error ("Circuit open for node " ++ node_id ++ " until "
              ++ intRepr (breakerOpenUntil system node_id)) ∧
      (withResilience system node_id retry threshold openMs now openNow fn).2.2 = 0) ∧
    (((withResilience system node_id retry threshold openMs now openNow fn).2.2 : Int)
        ≤ retry + 1) ∧
    (∀ resp,
      (withResilience system node_id retry threshold openMs now openNow fn).2.1
          = Except.ok resp →
      objGet (breakerState
          (withResilience system node_id retry threshold openMs now openNow fn).1 node_id)
          "failures" = some (Json.num 0) ∧
      objGet (breakerState
          (withResilience system node_id retry threshold openMs now openNow fn).1 node_id)
          "open_until_ms" = some (Json.num 0)) := by
  have _ := hwf
  by_cases hopen : breakerOpenUntil system node_id > now
  · refine ⟨fun _ => ?_, ?_, ?_⟩
    · constructor <;> simp [withResilience, hopen]
    · simp [withResilience, hopen]
      omega
    · intro resp hok
      exfalso
      simp [withResilience, hopen] at hok
  · refine ⟨fun h => absurd h hopen, ?_, ?_⟩
    · have hcount := resilienceLoop_count_le threshold openMs openNow fn
        ((max 0 retry).toNat + 1) (breakerState system node_id) "Request failed" 0
      have hmax : max 0 retry = retry := max_eq_right hretry
      simp only [withResilience, hopen, if_neg, ite_false]
      have : ((max 0 retry).toNat : Int) = retry := by
        rw [hmax]; exact Int.toNat_of_nonneg hretry
      omega
    · intro resp hok
      simp only [withResilience, hopen, ite_false] at hok ⊢
      obtain ⟨cpre, hcirc⟩ := resilienceLoop_success_circuit threshold openMs openNow fn
        ((max 0 retry).toNat + 1) (breakerState system node_id) "Request failed" 0 resp hok
      have hstate : ∀ (loopRes : List (String × Json)),
          breakerState (objSet system "circuit_breakers"
            (Json.obj (objSet (breakerTable system) node_id (Json.obj loopRes)))) node_id
          = loopRes := by
        intro loopRes
        unfold breakerState breakerTable
        simp only [objGet_objSet]
      rw [hstate, hcirc]
      constructor
      · rw [objGet_objSet_ne _ _ _ _ (by decide), objGet_objSet]
      · rw [objGet_objSet]

/-- Witness for C4 on an empty breaker table with an immediately
successful request: the thunk runs at most once. -/
theorem claim4_circuit_breaker_witness :
    circuitsWF [] "n1" = true ∧ (0 : Int) ≤ 0 ∧
    ((withResilience [] "n1" 0 5 30000 0 c4openNow c4fn).2.2 : Int) ≤ 0 + 1 :=
  ⟨rfl, by decide,
    (claim4_circuit_breaker [] "n1" 0 5 30000 0 c4openNow c4fn rfl (by decide)).2.1⟩

theorem pagLoop_items (strategy : String) (pageSize : Int)
    (itemsPath nextPath hasMorePath cursorName pageName sizeName offsetName limitName : String)
    (fetch : Nat → Option String → List (String × Json) → Json) :
    ∀ (fuel reqIdx : Nat) (nu : Option String) (cu : Json) (off pg : Int),
      (pagLoop strategy pageSize itemsPath nextPath hasMorePath cursorName pageName
          sizeName offsetName limitName fetch fuel reqIdx nu cu off pg).2
        = ((pagLoop strategy pageSize itemsPath nextPath hasMorePath cursorName pageName
            sizeName offsetName limitName fetch fuel reqIdx nu cu off pg).1.map
              (pageItems itemsPath)).flatten := by
  intro fuel
  induction fuel with
  | zero => intro reqIdx nu cu off pg; simp [pagLoop]
  | succ n ih =>
      intro reqIdx nu cu off pg
      simp only [pagLoop]
      split
      · simp [pageItems]
      · simp [pageItems, ih]

theorem pagLoop_length_le (strategy : String) (pageSize : Int)
    (itemsPath nextPath hasMorePath cursorName pageName sizeName offsetName limitName : String)
    (fetch : Nat → Option String → List (String × Json) → Json) :
    ∀ (fuel reqIdx : Nat) (nu : Option String) (cu : Json) (off pg : Int),
      (pagLoop strategy pageSize itemsPath nextPath hasMorePath cursorName pageName
          sizeName offsetName limitName fetch fuel reqIdx nu cu off pg).1.length ≤ fuel := by
  intro fuel
  induction fuel with
  | zero => intro reqIdx nu cu off pg; simp [pagLoop]
  | succ n ih =>
      intro reqIdx nu cu off pg
      simp only [pagLoop]
      split
      · simp
      · simpa using Nat.succ_le_succ (ih _ _ _ _ _)

theorem pagLoop_length_pos (strategy : String) (pageSize : Int)
    (itemsPath nextPath hasMorePath cursorName pageName sizeName offsetName limitName : String)
    (fetch : Nat → Option String → List (String × Json) → Json)
    (fuel reqIdx : Nat) (nu : Option String) (cu : Json) (off pg : Int) :
    1 ≤ (pagLoop strategy pageSize itemsPath nextPath hasMorePath cursorName pageName
        sizeName offsetName limitName fetch (fuel + 1) reqIdx nu cu off pg).1.length := by
  simp only [pagLoop]
  split
  · simp
  · simp

/-- C6.  A `paginate_request` node fetches at least one and at most
`max(1, maxPages)` pages (`maxPages` defaulting to 25), and its output
object is `{ status_code, pages_fetched, items, pages }` with `items`
the order-preserving concatenation of the item lists extracted at
`itemsPath` from each fetched page's body. -/
theorem claim6_paginator_output (config : List (String × Json))
    (fetch : Nat → Option String → List (String × Json) → Json) :
    executePaginateRequest config fetch
      = Json.obj [("status_code", Json.num 200),
                  ("pages_fetched", Json.num (pagRun config fetch).1.length),
                  ("items", Json.arr (pagRun config fetch).2),
                  ("pages", Json.arr (pagRun config fetch).1)] ∧
    1 ≤ (pagRun config fetch).1.length ∧
    ((pagRun config fetch).1.length : Int) ≤ max 1 (cfgInt config "maxPages" 25) ∧
    (pagRun config fetch).2
      = ((pagRun config fetch).1.map
          (pageItems (cfgStr config "itemsPath" "body.items"))).flatten := by
  have hmax1 : 1 ≤ max 1 (cfgInt config "maxPages" 25) := le_max_left 1 _
  have hfuel : ∃ n, (max 1 (cfgInt config "maxPages" 25)).toNat = n + 1 := by
    have h1 : 1 ≤ (max 1 (cfgInt config "maxPages" 25)).toNat := by
      omega
    exact ⟨(max 1 (cfgInt config "maxPages" 25)).toNat - 1, by omega⟩
  obtain ⟨n, hn⟩ := hfuel
  have hpos : 1 ≤ (pagRun config fetch).1.length := by
    unfold pagRun
    rw [hn]
    exact pagLoop_length_pos _ _ _ _ _ _ _ _ _ _ fetch n 0 none Json.null 0 1
  refine ⟨?_, hpos, ?_, ?_⟩
  · have hne : (pagRun config fetch).1.isEmpty = false := by
      cases h : (pagRun config fetch).1 with
      | nil => rw [h] at hpos; simp at hpos
      | cons a l => simp [h]
    simp [executePaginateRequest, hne]
  · have hle : (pagRun config fetch).1.length
        ≤ (max 1 (cfgInt config "maxPages" 25)).toNat := by
      unfold pagRun
      exact pagLoop_length_le _ _ _ _ _ _ _ _ _ _ fetch _ 0 none Json.null 0 1
    omega
  · unfold pagRun
    exact pagLoop_items _ _ _ _ _ _ _ _ _ _ fetch _ 0 none Json.null 0 1

theorem scanTemplate_nil (evalE : String → Ctx → Json) (c : Ctx) (fuel : Nat) :
    scanTemplate evalE c fuel [] = [] := by
  cases fuel <;> rfl

theorem takeSeg_append (l r : List Char) (h : '\x7d' ∉ l) :
    takeSeg (l ++ '\x7d' :: '\x7d' :: r) = some (l, r) := by
  induction l with
  | nil => simp [takeSeg]
  | cons c rest ih =>
      have hc : (c == '\x7d') = false := by
        simp only [beq_eq_false_iff_ne, ne_eq]
        intro hh
        exact h (by simp [hh])
      have hrest : '\x7d' ∉ rest := fun hm => h (List.mem_cons_of_mem c hm)
      rw [List.cons_append, takeSeg.eq_def]
      simp [hc, ih hrest]

theorem subList_append_right (pat l r : List Char) (h : subList pat r = true) :
    subList pat (l ++ r) = true := by
  induction l with
  | nil => simpa using h
  | cons c rest ih =>
      simp only [List.cons_append, subList]
      simp [ih]

theorem scanTemplate_wrap (evalE : String → Ctx → Json) (c : Ctx) (pd : List Char)
    (hbr : '\x7d' ∉ pd) (fuel : Nat) :
    scanTemplate evalE c (fuel + 1) ('\x7b' :: '\x7b' :: (pd ++ ['\x7d', '\x7d']))
      = (replValue (resolveValue evalE (String.mk pd) c)).data := by
  rw [scanTemplate]
  have htake : takeSeg (pd ++ ['\x7d', '\x7d']) = some (pd, []) :=
    takeSeg_append pd [] hbr
  simp [htake, scanTemplate_nil]

theorem mk_data (p : String) : String.mk p.data = p := by
  cases p
  rfl

/-- C7.  A template whose sole segment is a path `p` (brace- and
newline-free, so the scanner agrees with `TEMPLATE_RE`) renders to
exactly what the substitution function produces for the resolved value:
the JSON serialization when the value is an object or array, the empty
string when it is null. -/
theorem claim7_template_round_trip (evalE : String → Ctx → Json) (c : Ctx) (p : String)
    (hbl : '\x7b' ∉ p.data) (hbr : '\x7d' ∉ p.data) (hnl : '\n' ∉ p.data) :
    (renderTemplateStr evalE c ("\x7b\x7b" ++ p ++ "\x7d\x7d")
        = replValue (resolveValue evalE p c)) ∧
    (∀ kvs, resolveValue evalE p c = Json.obj kvs →
      renderTemplateStr evalE c ("\x7b\x7b" ++ p ++ "\x7d\x7d")
        = jsonDumps (resolveValue evalE p c)) ∧
    (∀ xs, resolveValue evalE p c = Json.arr xs →
      renderTemplateStr evalE c ("\x7b\x7b" ++ p ++ "\x7d\x7d")
        = jsonDumps (resolveValue evalE p c)) ∧
    (resolveValue evalE p c = Json.null →
      renderTemplateStr evalE c ("\x7b\x7b" ++ p ++ "\x7d\x7d") = "") := by
  have _ := hbl
  have _ := hnl
  have hdata : ("\x7b\x7b" ++ p ++ "\x7d\x7d").data
      = '\x7b' :: '\x7b' :: (p.data ++ '\x7d' :: '\x7d' :: []) := by
    cases p
    rfl
  have hmain : renderTemplateStr evalE c ("\x7b\x7b" ++ p ++ "\x7d\x7d")
      = replValue (resolveValue evalE p c) := by
    have hassoc : '\x7b' :: '\x7b' :: (p.data ++ '\x7d' :: '\x7d' :: [])
        = ('\x7b' :: '\x7b' :: p.data) ++ ('\x7d' :: '\x7d' :: []) := by
      simp
    have hopen : strContains ("\x7b\x7b" ++ p ++ "\x7d\x7d") "\x7b\x7b" = true := by
      unfold strContains
      rw [hdata]
      simp [subList, subList.leadsList]
    have hclose : strContains ("\x7b\x7b" ++ p ++ "\x7d\x7d") "\x7d\x7d" = true := by
      unfold strContains
      rw [hdata, hassoc]
      exact subList_append_right _ _ _ (by decide)
    unfold renderTemplateStr
    rw [hopen, hclose]
    simp only [Bool.and_self, if_true, hdata]
    have hlen : ('\x7b' :: '\x7b' :: (p.data ++ '\x7d' :: '\x7d' :: [])).length
        = p.data.length + 3 + 1 := by
      simp
    rw [hlen, scanTemplate_wrap evalE c p.data hbr, mk_data, mk_data]
  refine ⟨hmain, ?_, ?_, ?_⟩
  · intro kvs hv
    rw [hmain, hv]
    rfl
  · intro xs hv
    rw [hmain, hv]
    rfl
  · intro hv
    rw [hmain, hv]
    rfl

/-- Witness for C7: rendering a sole-segment template of an
object-valued path gives the value's JSON text. -/
theorem claim7_template_round_trip_witness :
    ('\x7b' ∉ "vars.x".data ∧ '\x7d' ∉ "vars.x".data ∧ '\n' ∉ "vars.x".data) ∧
    resolveValue evalNone "vars.x" c7ctx = Json.obj [("a", Json.num 1)] ∧
    renderTemplateStr evalNone c7ctx "\x7b\x7bvars.x\x7d\x7d"
      = jsonDumps (resolveValue evalNone "vars.x" c7ctx) := by
  refine ⟨⟨by decide, by decide, by decide⟩, rfl, ?_⟩
  have h := (claim7_template_round_trip evalNone c7ctx "vars.x"
    (by decide) (by decide) (by decide)).2.1 [("a", Json.num 1)] rfl
  exact h

/-- C8 counterexample.  The claim says abort applies only to `paused`
executions; but on a `completed` execution the abort request still
appends `RUN_ABORTED` and flips the status to `aborted`, because the 409
guard in `_debug_command` explicitly exempts `abort`. -/
theorem claim8_counterexample :
    c8state.row.status = "completed" ∧
    (debugCommand (some c8state) (some c3version) "abort" basicDeps 1).toOption.map
        (fun r => (r.1.row.status, r.1.events.map (fun e => e.event_type)))
      = some ("aborted", ["RUN_ABORTED"]) :=
  ⟨rfl, rfl⟩

/-- C8 as amended.  The abort control action applies to an existing
execution in *any* status (the not-paused 409 guard exempts abort): it
always appends `RUN_ABORTED` and marks the row `aborted`, clearing the
cursor and stored context as the terminal status update does. -/
theorem claim8_abort_any_status (st : ExecState) (v : VersionRow) (deps : RunDeps)
    (fuel : Nat) :
    debugCommand (some st) (some v) "abort" deps fuel
      = Except.ok
          (updateExecutionStatus (appendEvent st "RUN_ABORTED" none none (Json.obj []))
            "aborted" none none,
           RunOutcome.finished) := by
  unfold debugCommand continueExecutionFromPause
  simp

/-- C3 counterexample.  The claim says resume fails with `NoResumeCursor`
when *either* the stored context or the cursor is absent; but a paused
execution with a cursor and no stored `final_context_json` does not hit
that error: the controller reconstructs the empty context, logs
`RUN_RESUMED`, and calls `run_execution` — which raises the
`max_call_depth` `AttributeError`, a different failure. -/
theorem claim3_counterexample :
    c3state.row.final_context_json = none ∧
    continueExecutionFromPause basicDeps c3version "resume" 5 c3state
      = (appendEvent c3state "RUN_RESUMED" none none
          (Json.obj [("mode", Json.str "resume"), ("resume_node_id", Json.str "end1")]),
         RunOutcome.raised maxCallDepthAttrError) ∧
    maxCallDepthAttrError ≠ "Execution has no resume node" :=
  ⟨rfl, rfl, by decide⟩

/-- C3 as amended.  On a resume or step request the controller fails
with the `NoResumeCursor` error exactly when the stored
`current_node_id` is absent (or empty), appending nothing; an absent
`final_context_json` does not trigger it: the context is reconstructed
as empty, `RUN_RESUMED` is logged and `run_execution` is called, which
as staged raises the `max_call_depth` `AttributeError` at its opening
settings read — so the run loop is re-entered in neither case. -/
theorem claim3_resume_cursor (deps : RunDeps) (v : VersionRow) (fuel : Nat)
    (st : ExecState) (action : String) (hact : action ≠ "abort") :
    ((st.row.current_node_id = none ∨ st.row.current_node_id = some "") →
      continueExecutionFromPause deps v action fuel st
        = (st, RunOutcome.raised "Execution has no resume node")) ∧
    (∀ s, st.row.current_node_id = some s → s ≠ "" →
      continueExecutionFromPause deps v action fuel st
        = (appendEvent st "RUN_RESUMED" none none
            (Json.obj [("mode", Json.str action), ("resume_node_id", Json.str s)]),
           RunOutcome.raised maxCallDepthAttrError)) := by
  have hact' : (action == "abort") = false := by simp [hact]
  constructor
  · intro h
    rcases h with h | h <;> unfold continueExecutionFromPause <;> rw [hact'] <;> simp [h]
  · intro s hs hne
    unfold continueExecutionFromPause
    rw [hact']
    simp [hs, hne, runExecution]

/-- Witness for the amended C3 at a paused execution with no cursor. -/
theorem claim3_resume_cursor_witness :
    ("resume" : String) ≠ "abort" ∧ c3stateNoCursor.row.current_node_id = none ∧
    continueExecutionFromPause basicDeps c3version "resume" 5 c3stateNoCursor
      = (c3stateNoCursor, RunOutcome.raised "Execution has no resume node") := by
  refine ⟨by decide, rfl, ?_⟩
  exact (claim3_resume_cursor basicDeps c3version 5 c3stateNoCursor "resume"
    (by decide)).1 (Or.inl rfl)

/-- C2 counterexample.  The claim promises that a create call carrying
an existing idempotency key returns the existing execution row; but
version resolution runs first, so a request naming an unknown
workflow-version id answers 404 even though the key matches an existing
execution. -/
theorem claim2_counterexample :
    c2payload.idempotency_key = some "k" ∧
    getExecutionByIdempotencyKey c2db "k" = some c2row ∧
    createExecutionEndpoint c2db c2payload "new" idRunner
      = Except.error (404, "Workflow version not found") :=
  ⟨rfl, rfl, rfl⟩

/-- C2 as amended.  Provided the request's workflow target resolves and
its nonempty idempotency key already belongs to an existing execution,
the create call returns that existing row with the store unchanged and
without running the workflow; when resolution fails, the call returns
404 before the key is consulted, likewise creating and running
nothing. -/
theorem claim2_idempotent_hit (db : Db) (payload : ExecutionCreate) (k : String)
    (version : VersionRow) (existing : ExecRow) (newId : String)
    (runner : Db → ExecRow → VersionRow → Int → Db)
    (hkey : payload.idempotency_key = some k) (hne : k ≠ "")
    (hver : resolveWorkflowVersionForExecution db payload = some version)
    (hhit : getExecutionByIdempotencyKey db k = some existing) :
    createExecutionEndpoint db payload newId runner = Except.ok (db, existing, false) := by
  unfold createExecutionEndpoint
  rw [hver, hkey]
  simp [hne, hhit]

/-- Witness for the amended C2: a resolvable target plus a matching key
returns the stored row unchanged. -/
theorem claim2_idempotent_hit_witness :
    c2payloadOk.idempotency_key = some "k" ∧ ("k" : String) ≠ "" ∧
    resolveWorkflowVersionForExecution c2dbOk c2payloadOk = some c2version ∧
    getExecutionByIdempotencyKey c2dbOk "k" = some c2row ∧
    createExecutionEndpoint c2dbOk c2payloadOk "new" idRunner
      = Except.ok (c2dbOk, c2row, false) := by
  refine ⟨rfl, by decide, rfl, rfl, ?_⟩
  exact claim2_idempotent_hit c2dbOk c2payloadOk "k" c2version c2row "new" idRunner
    rfl (by decide) rfl rfl

theorem events_appendEvent (st : ExecState) (t : String) (n e : Option String) (p : Json) :
    (appendEvent st t n e p).events = st.events ++ [⟨t, n, e, p⟩] := rfl

theorem events_updateExecutionStatus (st : ExecState) (s : String) (cn : Option String)
    (fc : Option Json) : (updateExecutionStatus st s cn fc).events = st.events := by
  unfold updateExecutionStatus
  split
  · rfl
  · split <;> rfl

theorem events_createSnapshot (st : ExecState) (i : Nat) (c : Json) :
    (createSnapshot st i c).events = st.events := by
  unfold createSnapshot
  split <;> rfl

theorem events_writeSnapshot (i : Nat) (st : ExecState) (c : Ctx) :
    ∃ z, (writeSnapshotIfNeeded i st c).events = st.events ++ z ∧
      ∀ e ∈ z, e.event_type = "SNAPSHOT_WRITTEN" := by
  unfold writeSnapshotIfNeeded
  split
  · refine ⟨[⟨"SNAPSHOT_WRITTEN", none, none,
      Json.obj [("event_index", Json.num ((st.events.length : Int) - 1))]⟩], ?_, ?_⟩
    · rw [events_appendEvent, events_createSnapshot]
    · intro e he
      simp at he
      rw [he]
  · exact ⟨[], by simp, by simp⟩

theorem lifecycleGood_append_nl (pre Δ : List PEvent)
    (h : ∀ e ∈ pre, lifecycleTypes.contains e.event_type = false) :
    lifecycleGood (pre ++ Δ) = lifecycleGood Δ := by
  induction pre with
  | nil => rfl
  | cons e rest ih =>
      have he := h e (List.mem_cons_self e rest)
      simp only [List.cons_append, lifecycleGood, he]
      simp only [Bool.false_eq_true, if_false]
      exact ih (fun e' hm => h e' (List.mem_cons_of_mem e hm))

theorem lifecycleGood_pre (pre Δ : List PEvent)
    (hp : ∀ e ∈ pre, lifecycleTypes.contains e.event_type = false)
    (hΔ : lifecycleGood Δ = true) : lifecycleGood (pre ++ Δ) = true := by
  rw [lifecycleGood_append_nl pre Δ hp]
  exact hΔ

theorem lifecycleGood_of_no_lifecycle (Δ : List PEvent)
    (h : ∀ e ∈ Δ, lifecycleTypes.contains e.event_type = false) :
    lifecycleGood Δ = true := by
  induction Δ with
  | nil => rfl
  | cons e rest ih =>
      have he := h e (List.mem_cons_self e rest)
      simp only [lifecycleGood, he, Bool.false_eq_true, if_false]
      exact ih (fun e' hm => h e' (List.mem_cons_of_mem e hm))

theorem snapshot_not_lifecycle (e : PEvent) (h : e.event_type = "SNAPSHOT_WRITTEN") :
    lifecycleTypes.contains e.event_type = false := by
  rw [h]
  rfl

theorem lifecycleGood_term (e : PEvent) (snaps : List PEvent)
    (h : ∀ e' ∈ snaps, e'.event_type = "SNAPSHOT_WRITTEN") :
    lifecycleGood (e :: snaps) = true := by
  by_cases he : lifecycleTypes.contains e.event_type = true
  · simp only [lifecycleGood, he, if_true]
    rw [List.all_eq_true]
    intro e' hm
    simp [h e' hm]
  · have he' : lifecycleTypes.contains e.event_type = false := by
      simpa using he
    simp only [lifecycleGood, he', Bool.false_eq_true, if_false]
    exact lifecycleGood_of_no_lifecycle snaps
      (fun e' hm => snapshot_not_lifecycle e' (h e' hm))

theorem count_lifecycle_le_one (Δ : List PEvent) (h : lifecycleGood Δ = true) :
    (Δ.filter (fun e => lifecycleTypes.contains e.event_type)).length ≤ 1 := by
  induction Δ with
  | nil => simp
  | cons e rest ih =>
      by_cases he : lifecycleTypes.contains e.event_type = true
      · have hall : ∀ e' ∈ rest, e'.event_type = "SNAPSHOT_WRITTEN" := by
          simp only [lifecycleGood, he, if_true, List.all_eq_true] at h
          intro e' hm
          simpa using h e' hm
        have hfil : rest.filter (fun e => lifecycleTypes.contains e.event_type) = [] := by
          apply List.filter_eq_nil_iff.mpr
          intro a ha
          rw [snapshot_not_lifecycle a (hall a ha)]
          simp
        simp only [List.filter_cons, he, if_true, hfil, List.length_cons, List.length_nil]
        omega
      · have he' : lifecycleTypes.contains e.event_type = false := by simpa using he
        have h' : lifecycleGood rest = true := by
          simp only [lifecycleGood, he', Bool.false_eq_true, if_false] at h
          exact h
        simp only [List.filter_cons, he', Bool.false_eq_true, if_false]
        exact ih h'

theorem events_term_step (i : Nat) (stx : ExecState) (cx : Ctx) (t : String)
    (nd ed : Option String) (p : Json) (status : String) (cn : Option String)
    (fj : Option Json) :
    ∃ z, (writeSnapshotIfNeeded i
            (updateExecutionStatus (appendEvent stx t nd ed p) status cn fj) cx).events
        = stx.events ++ ⟨t, nd, ed, p⟩ :: z ∧
      ∀ e ∈ z, e.event_type = "SNAPSHOT_WRITTEN" := by
  obtain ⟨z, hz, hzs⟩ := events_writeSnapshot i
    (updateExecutionStatus (appendEvent stx t nd ed p) status cn fj) cx
  refine ⟨z, ?_, hzs⟩
  rw [hz, events_updateExecutionStatus, events_appendEvent]
  simp

theorem runLoop_suffix (deps : RunDeps) (nodes : List (String × NodeDefL))
    (outgoing : List (String × List EdgeL))
    (hdeps : ∀ node c, ∀ e ∈ (deps.execNode node c).events,
        lifecycleTypes.contains e.event_type = false) :
    ∀ (fuel : Nat) (current : String) (c : Ctx) (st : ExecState),
      ∃ Δ, (runLoop deps nodes outgoing fuel current c st).1.events = st.events ++ Δ ∧
        lifecycleGood Δ = true := by
  intro fuel
  induction fuel with
  | zero =>
      intro current c st
      exact ⟨[], by simp [runLoop], rfl⟩
  | succ n ih =>
      intro current c st
      rw [runLoop]
      cases hnode : nodeGet nodes current with
      | none =>
          refine ⟨[], ?_, rfl⟩
          simp
      | some node =>
          simp only []
          have heffE := hdeps node c
          set eff := deps.execNode node c with heffdef
          set st1 := updateExecutionStatus st "running" (some current) (some c.toJson)
            with hst1
          set st2 := appendEvent st1 "NODE_STARTED" (some current) none
            (Json.obj [("node_type", Json.str node.node_type),
                       ("label", Json.str node.label)]) with hst2
          set st3 : ExecState :=
            { st2 with events := st2.events ++ eff.events, saved := st2.saved ++ eff.saved }
            with hst3
          have hev3 : st3.events = st.events
              ++ (⟨"NODE_STARTED", some current, none,
                   Json.obj [("node_type", Json.str node.node_type),
                             ("label", Json.str node.label)]⟩ :: eff.events) := by
            rw [hst3]
            show st2.events ++ eff.events = _
            rw [hst2, events_appendEvent, hst1, events_updateExecutionStatus]
            simp
          have hpre0 : ∀ e ∈ (⟨"NODE_STARTED", some current, none,
                   Json.obj [("node_type", Json.str node.node_type),
                             ("label", Json.str node.label)]⟩ :: eff.events : List PEvent),
              lifecycleTypes.contains e.event_type = false := by
            intro e he
            rcases List.mem_cons.mp he with h | h
            · rw [h]
              rfl
            · exact heffE e h
          cases heff : eff.result with
          | error msg =>
              simp only [heff]
              set recF := Json.obj [("status", Json.str "failed"),
                ("node_type", Json.str node.node_type), ("label", Json.str node.label),
                ("error", Json.str msg)] with hrecF
              set cF : Ctx := { eff.ctx with nodes := objSet eff.ctx.nodes current recF }
                with hcF
              obtain ⟨z, hz, hzs⟩ := events_term_step deps.interval st3 cF "NODE_FAILED"
                (some current) none
                (Json.obj [("node_type", Json.str node.node_type),
                           ("error", Json.str msg)]) "failed" (some current)
                (some cF.toJson)
              refine ⟨(PEvent.mk "NODE_STARTED" (some current) none
                  (Json.obj [("node_type", Json.str node.node_type),
                             ("label", Json.str node.label)]) :: eff.events)
                ++ (PEvent.mk "NODE_FAILED" (some current) none
                  (Json.obj [("node_type", Json.str node.node_type),
                             ("error", Json.str msg)]) :: z), ?_, ?_⟩
              · rw [hz, hev3]
                rw [List.append_assoc]
              · exact lifecycleGood_pre _ _ hpre0 (lifecycleGood_term _ z hzs)
          | ok output =>
              simp only [heff]
              set recS := Json.obj [("status", Json.str "success"),
                ("node_type", Json.str node.node_type), ("label", Json.str node.label),
                ("output", output)] with hrecS
              set cS : Ctx := { eff.ctx with nodes := objSet eff.ctx.nodes current recS }
                with hcS
              set st4 := appendEvent st3 "NODE_SUCCEEDED" (some current) none
                (Json.obj [("node_type", Json.str node.node_type), ("output", output)])
                with hst4
              have hev4 : st4.events = st.events
                  ++ ((⟨"NODE_STARTED", some current, none,
                       Json.obj [("node_type", Json.str node.node_type),
                                 ("label", Json.str node.label)]⟩ :: eff.events)
                      ++ [⟨"NODE_SUCCEEDED", some current, none,
                           Json.obj [("node_type", Json.str node.node_type),
                                     ("output", output)]⟩]) := by
                rw [hst4, events_appendEvent, hev3]
                simp
              have hpre1 : ∀ e ∈ ((⟨"NODE_STARTED", some current, none,
                       Json.obj [("node_type", Json.str node.node_type),
                                 ("label", Json.str node.label)]⟩ :: eff.events)
                      ++ [⟨"NODE_SUCCEEDED", some current, none,
                           Json.obj [("node_type", Json.str node.node_type),
                                     ("output", output)]⟩] : List PEvent),
                  lifecycleTypes.contains e.event_type = false := by
                intro e he
                rcases List.mem_append.mp he with h | h
                · exact hpre0 e h
                · rw [List.mem_singleton.mp h]
                  rfl
              by_cases hend : (node.node_type == "end") = true
              · simp only [hend, if_true]
                obtain ⟨z, hz, hzs⟩ := events_term_step deps.interval st4 cS
                  "RUN_COMPLETED" none none (Json.obj []) "completed" (some current)
                  (some cS.toJson)
                refine ⟨((PEvent.mk "NODE_STARTED" (some current) none
                    (Json.obj [("node_type", Json.str node.node_type),
                               ("label", Json.str node.label)]) :: eff.events)
                  ++ [PEvent.mk "NODE_SUCCEEDED" (some current) none
                    (Json.obj [("node_type", Json.str node.node_type),
                               ("output", output)])])
                  ++ (PEvent.mk "RUN_COMPLETED" none none (Json.obj []) :: z), ?_, ?_⟩
                · rw [hz, hev4]
                  rw [List.append_assoc]
                · exact lifecycleGood_pre _ _ hpre1 (lifecycleGood_term _ z hzs)
              · simp only [hend, Bool.false_eq_true, if_false]
                cases hsel : selectNextEdge node outgoing output with
                | none =>
                    simp only [hsel]
                    obtain ⟨z, hz, hzs⟩ := events_term_step deps.interval st4 cS
                      "RUN_COMPLETED" none none
                      (Json.obj [("reason", Json.str "No outgoing edge"),
                                 ("at_node_id", Json.str current)])
                      "completed" (some current) (some cS.toJson)
                    refine ⟨((PEvent.mk "NODE_STARTED" (some current) none
                        (Json.obj [("node_type", Json.str node.node_type),
                                   ("label", Json.str node.label)]) :: eff.events)
                      ++ [PEvent.mk "NODE_SUCCEEDED" (some current) none
                        (Json.obj [("node_type", Json.str node.node_type),
                                   ("output", output)])])
                      ++ (PEvent.mk "RUN_COMPLETED" none none
                        (Json.obj [("reason", Json.str "No outgoing edge"),
                                   ("at_node_id", Json.str current)]) :: z), ?_, ?_⟩
                    · rw [hz, hev4]
                      rw [List.append_assoc]
                    · exact lifecycleGood_pre _ _ hpre1 (lifecycleGood_term _ z hzs)
                | some edge =>
                    simp only [hsel]
                    by_cases hbp : edge.breakpoint = true
                    · simp only [hbp, if_true]
                      obtain ⟨z, hz, hzs⟩ := events_term_step deps.interval st4 cS
                        "BREAKPOINT_PAUSED" none (some edge.id)
                        (Json.obj [("source", Json.str edge.source),
                                   ("target", Json.str edge.target)])
                        "paused" (some edge.target) (some cS.toJson)
                      refine ⟨((PEvent.mk "NODE_STARTED" (some current) none
                          (Json.obj [("node_type", Json.str node.node_type),
                                     ("label", Json.str node.label)]) :: eff.events)
                        ++ [PEvent.mk "NODE_SUCCEEDED" (some current) none
                          (Json.obj [("node_type", Json.str node.node_type),
                                     ("output", output)])])
                        ++ (PEvent.mk "BREAKPOINT_PAUSED" none (some edge.id)
                          (Json.obj [("source", Json.str edge.source),
                                     ("target", Json.str edge.target)]) :: z), ?_, ?_⟩
                      · rw [hz, hev4]
                        rw [List.append_assoc]
                      · exact lifecycleGood_pre _ _ hpre1 (lifecycleGood_term _ z hzs)
                    · simp only [hbp, Bool.false_eq_true, if_false]
                      obtain ⟨z, hz, hzs⟩ := events_writeSnapshot deps.interval
                        (appendEvent st4 "EDGE_TRAVERSED" none (some edge.id)
                          (Json.obj [("source", Json.str edge.source),
                                     ("target", Json.str edge.target)])) cS
                      obtain ⟨Δrec, hrec, hrecg⟩ := ih edge.target cS
                        (writeSnapshotIfNeeded deps.interval
                          (appendEvent st4 "EDGE_TRAVERSED" none (some edge.id)
                            (Json.obj [("source", Json.str edge.source),
                                       ("target", Json.str edge.target)])) cS)
                      refine ⟨((PEvent.mk "NODE_STARTED" (some current) none
                          (Json.obj [("node_type", Json.str node.node_type),
                                     ("label", Json.str node.label)]) :: eff.events)
                        ++ [PEvent.mk "NODE_SUCCEEDED" (some current) none
                          (Json.obj [("node_type", Json.str node.node_type),
                                     ("output", output)])])
                        ++ ((PEvent.mk "EDGE_TRAVERSED" none (some edge.id)
                          (Json.obj [("source", Json.str edge.source),
                                     ("target", Json.str edge.target)]) :: z) ++ Δrec),
                        ?_, ?_⟩
                      · rw [hrec, hz, events_appendEvent, hev4]
                        simp [List.append_assoc]
                      · refine lifecycleGood_pre _ _ hpre1 ?_
                        refine lifecycleGood_pre
                          (⟨"EDGE_TRAVERSED", none, some edge.id,
                            Json.obj [("source", Json.str edge.source),
                                      ("target", Json.str edge.target)]⟩ :: z) Δrec
                          ?_ hrecg
                        intro e he
                        rcases List.mem_cons.mp he with h | h
                        · rw [h]
                          rfl
                        · exact snapshot_not_lifecycle e (hzs e h)

theorem events_executeJoin (evalE : String → Ctx → Json) (node : NodeDefL) (c : Ctx) :
    (executeJoin evalE node c).events = [] := by
  simp only [executeJoin]
  split <;> rfl

theorem events_executeForEachParallel (evalE : String → Ctx → Json) (node : NodeDefL)
    (c : Ctx) : (executeForEachParallel evalE node c).events = [] := by
  simp only [executeForEachParallel]
  split <;> rfl

theorem events_executeNodePure (evalE : String → Ctx → Json) (node : NodeDefL) (c : Ctx) :
    (executeNodePure evalE node c).events = [] := by
  unfold executeNodePure
  by_cases h1 : (node.node_type == "auth" || node.node_type == "parameters"
      || node.node_type == "start") = true
  · rw [if_pos h1]
  · rw [if_neg h1]
    by_cases h2 : (node.node_type == "delay") = true
    · rw [if_pos h2]
    · rw [if_neg h2]
      by_cases h3 : (node.node_type == "define_variable") = true
      · rw [if_pos h3]
      · rw [if_neg h3]
        by_cases h4 : (node.node_type == "if") = true
        · rw [if_pos h4]
        · rw [if_neg h4]
          by_cases h5 : (node.node_type == "for_each_parallel") = true
          · rw [if_pos h5]
            exact events_executeForEachParallel evalE node c
          · rw [if_neg h5]
            by_cases h6 : (node.node_type == "join") = true
            · rw [if_pos h6]
              exact events_executeJoin evalE node c
            · rw [if_neg h6]
              by_cases h7 : (node.node_type == "save") = true
              · rw [if_pos h7]
                split <;> rfl
              · rw [if_neg h7]
                by_cases h8 : (node.node_type == "end") = true
                · rw [if_pos h8]
                · rw [if_neg h8]
                  by_cases h9 : (node.node_type == "raise_error") = true
                  · rw [if_pos h9]
                  · rw [if_neg h9]
                    by_cases h10 : (effectfulNodeTypes.contains node.node_type) = true
                    · rw [if_pos h10]
                    · rw [if_neg h10]

/-- Lifecycle shape of the unreachable `run_execution` body: were the
settings read to succeed, one entry would append at most one lifecycle
event, and only last up to trailing `SNAPSHOT_WRITTEN` bookkeeping,
provided the dispatcher appends no lifecycle events itself (the
source's appends only `INVOKE_WORKFLOW_*`). -/
theorem runExecutionBody_lifecycle (deps : RunDeps) (maxDepth : Int)
    (hdeps : ∀ node c, ∀ e ∈ (deps.execNode node c).events,
        lifecycleTypes.contains e.event_type = false)
    (v : VersionRow) (input : Json) (depth : Int) (parent corr : Option String)
    (startN : Option String) (ov : Option Ctx) (isres : Bool) (eid : String)
    (fuel : Nat) (st : ExecState) :
    ∃ Δ, (runExecutionBody deps maxDepth v input depth parent corr startN ov isres eid fuel
            st).1.events
        = st.events ++ Δ ∧ lifecycleGood Δ = true ∧
        (Δ.filter (fun e => lifecycleTypes.contains e.event_type)).length ≤ 1 := by
  unfold runExecutionBody
  split
  · exact ⟨[], by simp, rfl, by simp⟩
  · cases hval : resolveEntry v.graph_json (indexGraph v.graph_json).1 startN with
      | none =>
          simp only [hval]
          refine ⟨[PEvent.mk "NODE_FAILED" none none
            (Json.obj [("error", Json.str "Missing or invalid entry_node_id")])], ?_, ?_, ?_⟩
          · show (updateExecutionStatus (appendEvent st "NODE_FAILED" none none
              (Json.obj [("error", Json.str "Missing or invalid entry_node_id")]))
                "failed" none none).events = _
            rw [events_updateExecutionStatus, events_appendEvent]
          · rfl
          · decide
      | some current =>
          simp only [hval]
          by_cases hres : isres = true
          · simp only [hres, if_true]
            obtain ⟨Δ, hΔ, hg⟩ := runLoop_suffix deps (indexGraph v.graph_json).1
              (indexGraph v.graph_json).2 hdeps fuel current
              (match ov with
               | some c => c
               | none => initialContext (indexGraph v.graph_json).1 input eid depth
                   parent corr) st
            exact ⟨Δ, hΔ, hg, count_lifecycle_le_one Δ hg⟩
          · simp only [hres, Bool.false_eq_true, if_false]
            obtain ⟨Δ, hΔ, hg⟩ := runLoop_suffix deps (indexGraph v.graph_json).1
              (indexGraph v.graph_json).2 hdeps fuel current
              (match ov with
               | some c => c
               | none => initialContext (indexGraph v.graph_json).1 input eid depth
                   parent corr)
              (appendEvent st "RUN_STARTED" none none
                (Json.obj [("workflow_version_id", Json.str v.id),
                           ("call_depth", Json.num depth),
                           ("parent_execution_id", optStr parent),
                           ("correlation_id", optStr corr)]))
            refine ⟨PEvent.mk "RUN_STARTED" none none
                (Json.obj [("workflow_version_id", Json.str v.id),
                           ("call_depth", Json.num depth),
                           ("parent_execution_id", optStr parent),
                           ("correlation_id", optStr corr)]) :: Δ, ?_, ?_, ?_⟩
            · rw [hΔ, events_appendEvent]
              simp
            · exact lifecycleGood_pre [_] Δ
                (by intro e he; rw [List.mem_singleton.mp he]; rfl) hg
            · have hgood : lifecycleGood (PEvent.mk "RUN_STARTED" none none
                  (Json.obj [("workflow_version_id", Json.str v.id),
                             ("call_depth", Json.num depth),
                             ("parent_execution_id", optStr parent),
                             ("correlation_id", optStr corr)]) :: Δ) = true :=
                lifecycleGood_pre [_] Δ
                  (by intro e he; rw [List.mem_singleton.mp he]; rfl) hg
              exact count_lifecycle_le_one _ hgood

/-- C1 as amended.  Every call of `run_execution` raises the
`max_call_depth` `AttributeError` at its opening settings read, before
appending any event or touching the row, so an execution's log receives
lifecycle events from two places only: `main.create_execution`'s
handler, which appends exactly one `NODE_FAILED` (without node id) and
marks the row failed when it creates and runs the execution, and the
abort action, which appends one `RUN_ABORTED` per request in any status
and any number of times — so `RUN_ABORTED` can occur more than once and
after the `NODE_FAILED`, and the at-most-once / last-position invariant
does not hold of the log. -/
theorem claim1_lifecycle_staged :
    (∀ (deps : RunDeps) (v : VersionRow) (input : Json) (depth : Int)
       (parent corr startN : Option String) (ov : Option Ctx) (isres : Bool)
       (eid : String) (fuel : Nat) (st : ExecState),
      runExecution deps v input depth parent corr startN ov isres eid fuel st
        = (st, RunOutcome.raised maxCallDepthAttrError)) ∧
    (∀ (deps : RunDeps) (v : VersionRow) (input : Json) (depth : Int)
       (parent corr : Option String) (eid : String) (fuel : Nat) (st : ExecState),
      (createExecutionRun deps v input depth parent corr eid fuel st).1.events
          = st.events ++ [PEvent.mk "NODE_FAILED" none none
              (Json.obj [("error", Json.str maxCallDepthAttrError)])] ∧
      (createExecutionRun deps v input depth parent corr eid fuel st).1.row.status
          = "failed") ∧
    (∀ (deps : RunDeps) (v : VersionRow) (fuel : Nat) (st : ExecState),
      continueExecutionFromPause deps v "abort" fuel st
        = (updateExecutionStatus (appendEvent st "RUN_ABORTED" none none (Json.obj []))
            "aborted" none none,
           RunOutcome.finished)) := by
  refine ⟨fun _ _ _ _ _ _ _ _ _ _ _ _ => rfl, ?_, ?_⟩
  · intro deps v input depth parent corr eid fuel st
    constructor
    · show (updateExecutionStatus (appendEvent st "NODE_FAILED" none none
          (Json.obj [("error", Json.str maxCallDepthAttrError)])) "failed" none none).events
        = _
      rw [events_updateExecutionStatus, events_appendEvent]
    · rfl
  · intro deps v fuel st
    unfold continueExecutionFromPause
    simp

/-- C1 counterexample.  `run_execution` raises before its first event
append, so creating and running an execution leaves one handler-appended
`NODE_FAILED` in the log; two subsequent abort requests — each accepted
by `_debug_command`, whose 409 guard exempts abort — append `RUN_ABORTED`
twice.  The resulting log holds `RUN_ABORTED` twice and holds lifecycle
events after the `NODE_FAILED`, contradicting the claim's at-most-once /
last-position invariant. -/
theorem claim1_counterexample :
    c1s1.events.map (fun e => e.event_type) = ["NODE_FAILED"] ∧
    c1s1.row.status = "failed" ∧
    debugCommand (some c1s1) (some c1version) "abort" basicDeps 1
      = Except.ok (c1s2, RunOutcome.finished) ∧
    debugCommand (some c1s2) (some c1version) "abort" basicDeps 1
      = Except.ok (c1s3, RunOutcome.finished) ∧
    c1s3.events.map (fun e => e.event_type)
      = ["NODE_FAILED", "RUN_ABORTED", "RUN_ABORTED"] :=
  ⟨rfl, rfl, rfl, rfl, rfl⟩

end ApiUiBuilder
